import Mathlib

/-!
# simple-rbac: shallow embedding and checked properties

The relational store is embedded as five lists of rows (`users`, `roles`,
`permissions`, `user_roles`, `role_permissions`).  A `*sql.DB` handle is a
`DB`: the committed rows, the statements the server refuses (constraint
violations, lost connections: the table declarations are not part of the
repository, so they are a parameter) and the id the server hands out on
insert.  Handlers are functions from the handle and the request to the
response and the rows committed afterwards; a transaction is a working copy
of the rows that replaces the committed rows on `Commit` and is dropped by
the deferred `Rollback`.

Strings are compared with exact equality.  Identifiers are unbounded
integers (`int` ids come from the store's counters; no arithmetic is done on
them).
-/

deriving instance DecidableEq for Except

namespace Rbac

/-! ## Rows and store -/

/-- Row of `users`. -/
structure User where
  id : Int
  username : String
  password : String
  deriving DecidableEq, Repr

/-- Row of `roles`. -/
structure Role where
  id : Int
  name : String
  deriving DecidableEq, Repr

/-- Row of `permissions`. -/
structure Permission where
  id : Int
  name : String
  deriving DecidableEq, Repr

/-- Row of `user_roles`. -/
structure UserRole where
  user_id : Int
  role_id : Int
  deriving DecidableEq, Repr

/-- Row of `role_permissions`. -/
structure RolePermission where
  role_id : Int
  permission_id : Int
  deriving DecidableEq, Repr

/-- The rows of the five tables the handlers read and write. -/
structure Store where
  users : List User
  roles : List Role
  permissions : List Permission
  user_roles : List UserRole
  role_permissions : List RolePermission
  deriving DecidableEq, Repr

/-- Statements and driver calls issued by the handlers and the middleware. -/
inductive Stmt where
  | begin
  | commit
  | lastInsertId
  | rowsAffected
  | insertUser (username password : String)
  | selectRoleIdByName (name : String)
  | insertUserRole (userID roleID : Int)
  | updateUsername (username : String) (userID : Int)
  | deleteUserRolesByUser (userID : Int)
  | deleteUser (userID : Int)
  | selectUserById (userID : Int)
  | selectUserRoles (userID : Int)
  | updateRoleName (name : String) (roleID : Int)
  | selectPermissionIdByName (name : String)
  | insertRolePermission (roleID permissionID : Int)
  | deleteRolePermissions (roleID : Int)
  | deleteUserRolesByRole (roleID : Int)
  | deleteRole (roleID : Int)
  | selectHasPermission (userID : Int) (permission : String)
  | selectRolePermissions (roleID : Int)
  deriving DecidableEq, Repr

/-- A database handle: the committed rows, the statements the server answers
with an error in a given state of the rows, and the id `AUTO_INCREMENT`
assigns to a row inserted into `users` in a given state. -/
structure DB where
  store : Store
  rejects : Store → Stmt → Bool
  autoIncUser : Store → Int

/-! ## Queries -/

/-- The `SELECT EXISTS (...)` of `RequirePermission` (middleware/auth.go 54-62):
`users u JOIN user_roles ur ON u.id = ur.user_id JOIN role_permissions rp ON
ur.role_id = rp.role_id JOIN permissions p ON rp.permission_id = p.id WHERE
u.id = ? AND p.name = ?`. -/
def hasPermissionQuery (s : Store) (userID : Int) (permission : String) : Bool :=
  s.users.any fun u =>
    s.user_roles.any fun ur =>
      s.role_permissions.any fun rp =>
        s.permissions.any fun p =>
          u.id == ur.user_id && ur.role_id == rp.role_id && rp.permission_id == p.id
            && u.id == userID && p.name == permission

/-- The rows of `SELECT p.name FROM permissions p JOIN role_permissions rp ON
p.id = rp.permission_id WHERE rp.role_id = ?` (handlers/role.go 253-257). -/
def rolePermissionsQuery (s : Store) (roleID : Int) : List String :=
  s.permissions.flatMap fun p =>
    (s.role_permissions.filter fun rp => p.id == rp.permission_id && rp.role_id == roleID).map
      fun _ => p.name

/-- Go `RoleHandler.getRolePermissions` (handlers/role.go 252-272): the names
of the rows of the query, or the error of the query. -/
def getRolePermissions (db : DB) (roleID : Int) : Except String (List String) :=
  if db.rejects db.store (.selectRolePermissions roleID) then .error "query failed"
  else .ok (rolePermissionsQuery db.store roleID)

/-- The call `m.db.QueryRow(...).Scan(&hasPermission)` of `RequirePermission`:
the value of the `EXISTS`, or the error of the query. -/
def queryHasPermission (db : DB) (userID : Int) (permission : String) : Except String Bool :=
  if db.rejects db.store (.selectHasPermission userID permission) then .error "query failed"
  else .ok (hasPermissionQuery db.store userID permission)

/-! ## Request context and middleware outcome -/

/-- The keys of the gin context this program sets (`c.Set` in `Authenticate`);
`none` is an absent key. -/
structure Context where
  user_id : Option Int
  username : Option String
  roles : Option (List String)
  deriving DecidableEq, Repr

/-- A fresh request context: no key set. -/
def Context.empty : Context := ⟨none, none, none⟩

/-- JSON bodies the handlers and the middleware write. -/
inductive Body where
  | error (msg : String)
  | bindError
  | message (msg : String)
  | user (id : Int) (username : String) (roles : List String)
  | tokens (accessToken refreshToken : String)
  deriving DecidableEq, Repr

/-- A response: status code and JSON body. -/
structure Response where
  status : Nat
  body : Body
  deriving DecidableEq, Repr

/-- What a middleware does with a request: `c.AbortWithStatusJSON` or
`c.Next()` with the context it leaves. -/
inductive Outcome where
  | abort (resp : Response)
  | next (c : Context)
  deriving DecidableEq, Repr

/-- Go `AuthMiddleware.RequirePermission` (middleware/auth.go 46-72). -/
def RequirePermission (db : DB) (permission : String) (c : Context) : Outcome :=
  match c.user_id with
  | none => .abort ⟨401, .error "Unauthorized"⟩
  | some userID =>
    match queryHasPermission db userID permission with
    | .error _ => .abort ⟨403, .error "Forbidden"⟩
    | .ok hasPermission =>
      if !hasPermission then .abort ⟨403, .error "Forbidden"⟩
      else .next c

/-! ## Handlers over the store -/

/-- Value of a non-empty run of decimal digits, most significant first. -/
def digitsValue : List Char → Option Nat
  | [] => none
  | cs => cs.foldl (fun acc c =>
      match acc with
      | none => none
      | some n => if c.isDigit then some (n * 10 + (c.toNat - 48)) else none) (some 0)

/-- Go `strconv.Atoi`: an optional sign and decimal digits, within the range
of a 64-bit `int`. -/
def Atoi (s : String) : Option Int :=
  let inRange (v : Int) : Option Int :=
    if -(9223372036854775808 : Int) ≤ v ∧ v < 9223372036854775808 then some v else none
  match s.data with
  | '-' :: cs => (digitsValue cs).bind fun n => inRange (-(n : Int))
  | '+' :: cs => (digitsValue cs).bind fun n => inRange (n : Int)
  | cs => (digitsValue cs).bind fun n => inRange (n : Int)

/-- Rows after `DELETE FROM role_permissions WHERE role_id = ?`. -/
def Store.deleteRolePermissions (s : Store) (roleID : Int) : Store :=
  { s with role_permissions := s.role_permissions.filter fun rp => rp.role_id != roleID }

/-- Rows after `DELETE FROM user_roles WHERE role_id = ?`. -/
def Store.deleteUserRolesByRole (s : Store) (roleID : Int) : Store :=
  { s with user_roles := s.user_roles.filter fun ur => ur.role_id != roleID }

/-- Rows after `DELETE FROM roles WHERE id = ?`. -/
def Store.deleteRole (s : Store) (roleID : Int) : Store :=
  { s with roles := s.roles.filter fun r => r.id != roleID }

/-- Rows after `INSERT INTO users (username, password) VALUES (?, ?)` when the
server assigns `id`. -/
def Store.insertUser (s : Store) (id : Int) (username password : String) : Store :=
  { s with users := s.users ++ [⟨id, username, password⟩] }

/-- Rows after `INSERT INTO user_roles (user_id, role_id) VALUES (?, ?)`. -/
def Store.insertUserRole (s : Store) (userID roleID : Int) : Store :=
  { s with user_roles := s.user_roles ++ [⟨userID, roleID⟩] }

/-- The row `SELECT id FROM roles WHERE name = ?` scans: the first match. -/
def Store.roleByName (s : Store) (name : String) : Option Role :=
  s.roles.find? fun r => r.name == name

/-- Go `RoleHandler.DeleteRole` (handlers/role.go 201-250): the response and
the rows committed after the call.  Every early `return` runs the deferred
`tx.Rollback()`, which leaves the committed rows as they were. -/
def DeleteRole (db : DB) (idParam : String) : Response × Store :=
  match Atoi idParam with
  | none => (⟨400, .error "Invalid role ID"⟩, db.store)
  | some id =>
    if db.rejects db.store .begin then
      (⟨500, .error "Failed to start transaction"⟩, db.store)
    else
      let tx := db.store
      if db.rejects tx (.deleteRolePermissions id) then
        (⟨500, .error "Failed to delete role permissions"⟩, db.store)
      else
        let tx := tx.deleteRolePermissions id
        if db.rejects tx (.deleteUserRolesByRole id) then
          (⟨500, .error "Failed to delete user roles"⟩, db.store)
        else
          let tx := tx.deleteUserRolesByRole id
          if db.rejects tx (.deleteRole id) then
            (⟨500, .error "Failed to delete role"⟩, db.store)
          else
            let affected := (tx.roles.filter fun r => r.id == id).length
            let tx := tx.deleteRole id
            if db.rejects tx .rowsAffected then
              (⟨500, .error "Failed to get affected rows"⟩, db.store)
            else if affected == 0 then
              (⟨404, .error "Role not found"⟩, db.store)
            else if db.rejects tx .commit then
              (⟨500, .error "Failed to commit transaction"⟩, db.store)
            else
              (⟨200, .message "Role deleted successfully"⟩, tx)

/-- JSON object sent to `POST /api/users`; `none` is an absent or `null`
member. -/
structure CreateUserJSON where
  username : Option String
  password : Option String
  roles : Option (List String)
  deriving DecidableEq, Repr

/-- Go `CreateUserRequest` (handlers/user.go 16-20). -/
structure CreateUserRequest where
  Username : String
  Password : String
  Roles : List String
  deriving DecidableEq, Repr

/-- The call `c.ShouldBindJSON(&req)` for `CreateUserRequest`: the body must
be JSON (`none` otherwise), `username` and `password` are `required`,
`password` has `min=6` and `roles` is `required` (not nil). -/
def bindCreateUser (body : Option CreateUserJSON) : Option CreateUserRequest :=
  match body with
  | none => none
  | some j =>
    match j.roles with
    | none => none
    | some roles =>
      let username := j.username.getD ""
      let password := j.password.getD ""
      if username = "" ∨ password.length < 6 then none
      else some ⟨username, password, roles⟩

/-- The loop `for _, roleName := range req.Roles` of `CreateUser`
(handlers/user.go 75-89) and, with the same body, of `UpdateUser`
(handlers/user.go 203-216) over the working copy `tx`: the response of the
early `return`, or the working copy after the loop. -/
def assignRoles (db : DB) (userID : Int) : List String → Store → Except Response Store
  | [], tx => .ok tx
  | roleName :: rest, tx =>
    if db.rejects tx (.selectRoleIdByName roleName) then
      .error ⟨400, .error ("Invalid role: " ++ roleName)⟩
    else
      match tx.roleByName roleName with
      | none => .error ⟨400, .error ("Invalid role: " ++ roleName)⟩
      | some r =>
        if db.rejects tx (.insertUserRole userID r.id) then
          .error ⟨500, .error "Failed to assign role"⟩
        else assignRoles db userID rest (tx.insertUserRole userID r.id)

/-- Go `UserHandler.CreateUser` (handlers/user.go 41-103): the response and the
rows committed after the call.  `bcrypt` is `bcrypt.GenerateFromPassword`
(`none` is its error). -/
def CreateUser (db : DB) (bcrypt : String → Option String) (body : Option CreateUserJSON) :
    Response × Store :=
  match bindCreateUser body with
  | none => (⟨400, .bindError⟩, db.store)
  | some req =>
    if db.rejects db.store .begin then
      (⟨500, .error "Internal server error"⟩, db.store)
    else
      let tx := db.store
      match bcrypt req.Password with
      | none => (⟨500, .error "Failed to hash password"⟩, db.store)
      | some hashedPassword =>
        if db.rejects tx (.insertUser req.Username hashedPassword) then
          (⟨500, .error "Failed to create user"⟩, db.store)
        else
          let userID := db.autoIncUser tx
          let tx := tx.insertUser userID req.Username hashedPassword
          if db.rejects tx .lastInsertId then
            (⟨500, .error "Failed to get user ID"⟩, db.store)
          else
            match assignRoles db userID req.Roles tx with
            | .error resp => (resp, db.store)
            | .ok tx =>
              if db.rejects tx .commit then
                (⟨500, .error "Failed to commit transaction"⟩, db.store)
              else
                (⟨201, .user userID req.Username req.Roles⟩, tx)

/-- Rows after `UPDATE users SET username = ? WHERE id = ?`. -/
def Store.updateUsername (s : Store) (userID : Int) (username : String) : Store :=
  { s with users := s.users.map fun u => if u.id == userID then { u with username := username } else u }

/-- Rows after `DELETE FROM user_roles WHERE user_id = ?`. -/
def Store.deleteUserRolesByUser (s : Store) (userID : Int) : Store :=
  { s with user_roles := s.user_roles.filter fun ur => ur.user_id != userID }

/-- JSON object sent to `PUT /api/users/:id`; `none` is an absent or `null`
member. -/
structure UpdateUserJSON where
  username : Option String
  roles : Option (List String)
  deriving DecidableEq, Repr

/-- Go `UpdateUserRequest` (handlers/user.go 28-31); `Roles` is `none` for a
nil slice. -/
structure UpdateUserRequest where
  Username : String
  Roles : Option (List String)
  deriving DecidableEq, Repr

/-- The call `c.ShouldBindJSON(&req)` for `UpdateUserRequest`: the body must be
JSON and `username` is `required`. -/
def bindUpdateUser (body : Option UpdateUserJSON) : Option UpdateUserRequest :=
  match body with
  | none => none
  | some j =>
    let username := j.username.getD ""
    if username = "" then none else some ⟨username, j.roles⟩

/-- Go `UserHandler.UpdateUser` (handlers/user.go 170-225): the response and the
rows committed after the call. -/
def UpdateUser (db : DB) (idParam : String) (body : Option UpdateUserJSON) :
    Response × Store :=
  match Atoi idParam with
  | none => (⟨400, .error "Invalid user ID"⟩, db.store)
  | some id =>
    match bindUpdateUser body with
    | none => (⟨400, .bindError⟩, db.store)
    | some req =>
      if db.rejects db.store .begin then
        (⟨500, .error "Failed to start transaction"⟩, db.store)
      else
        let tx := db.store
        if db.rejects tx (.updateUsername req.Username id) then
          (⟨500, .error "Failed to update user"⟩, db.store)
        else
          let tx := tx.updateUsername id req.Username
          let commit (tx : Store) : Response × Store :=
            if db.rejects tx .commit then
              (⟨500, .error "Failed to commit transaction"⟩, db.store)
            else
              (⟨200, .message "User updated successfully"⟩, tx)
          match req.Roles with
          | none => commit tx
          | some roles =>
            if db.rejects tx (.deleteUserRolesByUser id) then
              (⟨500, .error "Failed to update user roles"⟩, db.store)
            else
              match assignRoles db id roles (tx.deleteUserRolesByUser id) with
              | .error resp => (resp, db.store)
              | .ok tx => commit tx

/-! ## UpdateRole, DeleteUser, GetUser -/

/-- Rows after `UPDATE roles SET name = ? WHERE id = ?`. -/
def Store.updateRoleName (s : Store) (roleID : Int) (name : String) : Store :=
  { s with roles := s.roles.map fun r => if r.id == roleID then { r with name := name } else r }

/-- Rows after `INSERT INTO role_permissions (role_id, permission_id) VALUES
(?, ?)`. -/
def Store.insertRolePermission (s : Store) (roleID permissionID : Int) : Store :=
  { s with role_permissions := s.role_permissions ++ [⟨roleID, permissionID⟩] }

/-- Rows after `DELETE FROM users WHERE id = ?`. -/
def Store.deleteUser (s : Store) (userID : Int) : Store :=
  { s with users := s.users.filter fun u => u.id != userID }

/-- The row `SELECT id FROM permissions WHERE name = ?` scans: the first
match. -/
def Store.permissionByName (s : Store) (name : String) : Option Permission :=
  s.permissions.find? fun p => p.name == name

/-- The row `SELECT id, username FROM users WHERE id = ?` scans: the first
match. -/
def Store.userById (s : Store) (userID : Int) : Option User :=
  s.users.find? fun u => u.id == userID

/-- The rows of `SELECT r.name FROM roles r JOIN user_roles ur ON r.id =
ur.role_id WHERE ur.user_id = ?` (handlers/user.go 273-277). -/
def userRolesQuery (s : Store) (userID : Int) : List String :=
  s.roles.flatMap fun r =>
    (s.user_roles.filter fun ur => r.id == ur.role_id && ur.user_id == userID).map
      fun _ => r.name

/-- Go `UserHandler.getUserRoles` (handlers/user.go 272-292). -/
def getUserRoles (db : DB) (userID : Int) : Except String (List String) :=
  if db.rejects db.store (.selectUserRoles userID) then .error "query failed"
  else .ok (userRolesQuery db.store userID)

/-- Go `UserHandler.GetUser` (handlers/user.go 141-168): `sql.ErrNoRows` is
answered 404, any other error of the query 500. -/
def GetUser (db : DB) (idParam : String) : Response :=
  match Atoi idParam with
  | none => ⟨400, .error "Invalid user ID"⟩
  | some id =>
    if db.rejects db.store (.selectUserById id) then ⟨500, .error "Failed to fetch user"⟩
    else
      match db.store.userById id with
      | none => ⟨404, .error "User not found"⟩
      | some user =>
        match getUserRoles db id with
        | .error _ => ⟨500, .error "Failed to fetch user roles"⟩
        | .ok roles => ⟨200, .user user.id user.username roles⟩

/-- Go `UserHandler.DeleteUser` (handlers/user.go 227-270): the response and
the rows committed after the call. -/
def DeleteUser (db : DB) (idParam : String) : Response × Store :=
  match Atoi idParam with
  | none => (⟨400, .error "Invalid user ID"⟩, db.store)
  | some id =>
    if db.rejects db.store .begin then
      (⟨500, .error "Failed to start transaction"⟩, db.store)
    else
      let tx := db.store
      if db.rejects tx (.deleteUserRolesByUser id) then
        (⟨500, .error "Failed to delete user roles"⟩, db.store)
      else
        let tx := tx.deleteUserRolesByUser id
        if db.rejects tx (.deleteUser id) then
          (⟨500, .error "Failed to delete user"⟩, db.store)
        else
          let affected := (tx.users.filter fun u => u.id == id).length
          let tx := tx.deleteUser id
          if db.rejects tx .rowsAffected then
            (⟨500, .error "Failed to get affected rows"⟩, db.store)
          else if affected == 0 then
            (⟨404, .error "User not found"⟩, db.store)
          else if db.rejects tx .commit then
            (⟨500, .error "Failed to commit transaction"⟩, db.store)
          else
            (⟨200, .message "User deleted successfully"⟩, tx)

/-- JSON object sent to `PUT /api/roles/:id`; `none` is an absent or `null`
member. -/
structure UpdateRoleJSON where
  name : Option String
  permissions : Option (List String)
  deriving DecidableEq, Repr

/-- Go `UpdateRoleRequest` (handlers/role.go 26-29); `Permissions` is `none`
for a nil slice. -/
structure UpdateRoleRequest where
  Name : String
  Permissions : Option (List String)
  deriving DecidableEq, Repr

/-- The call `c.ShouldBindJSON(&req)` for `UpdateRoleRequest`: the body must be
JSON and `name` is `required`. -/
def bindUpdateRole (body : Option UpdateRoleJSON) : Option UpdateRoleRequest :=
  match body with
  | none => none
  | some j =>
    let name := j.name.getD ""
    if name = "" then none else some ⟨name, j.permissions⟩

/-- The loop `for _, permName := range req.Permissions` of `UpdateRole`
(handlers/role.go 176-190) and, with the same body, of `CreateRole`
(handlers/role.go 118-133) over the working copy `tx`: the response of the
early `return`, or the working copy after the loop. -/
def assignPermissions (db : DB) (roleID : Int) : List String → Store → Except Response Store
  | [], tx => .ok tx
  | permName :: rest, tx =>
    if db.rejects tx (.selectPermissionIdByName permName) then
      .error ⟨400, .error ("Invalid permission: " ++ permName)⟩
    else
      match tx.permissionByName permName with
      | none => .error ⟨400, .error ("Invalid permission: " ++ permName)⟩
      | some p =>
        if db.rejects tx (.insertRolePermission roleID p.id) then
          .error ⟨500, .error "Failed to assign permission"⟩
        else assignPermissions db roleID rest (tx.insertRolePermission roleID p.id)

/-- Go `RoleHandler.UpdateRole` (handlers/role.go 142-199): the response and the
rows committed after the call. -/
def UpdateRole (db : DB) (idParam : String) (body : Option UpdateRoleJSON) :
    Response × Store :=
  match Atoi idParam with
  | none => (⟨400, .error "Invalid role ID"⟩, db.store)
  | some id =>
    match bindUpdateRole body with
    | none => (⟨400, .bindError⟩, db.store)
    | some req =>
      if db.rejects db.store .begin then
        (⟨500, .error "Failed to start transaction"⟩, db.store)
      else
        let tx := db.store
        if db.rejects tx (.updateRoleName req.Name id) then
          (⟨500, .error "Failed to update role"⟩, db.store)
        else
          let tx := tx.updateRoleName id req.Name
          let commit (tx : Store) : Response × Store :=
            if db.rejects tx .commit then
              (⟨500, .error "Failed to commit transaction"⟩, db.store)
            else
              (⟨200, .message "Role updated successfully"⟩, tx)
          match req.Permissions with
          | none => commit tx
          | some permissions =>
            if db.rejects tx (.deleteRolePermissions id) then
              (⟨500, .error "Failed to update role permissions"⟩, db.store)
            else
              match assignPermissions db id permissions (tx.deleteRolePermissions id) with
              | .error resp => (resp, db.store)
              | .ok tx => commit tx

/-- The `user_roles` rows that link user `userID` to the roles named by
`names`, in the order of the names; `none` when a name is carried by no role
row. -/
def roleLinks (roles : List Role) (userID : Int) : List String → Option (List UserRole)
  | [] => some []
  | name :: rest =>
    match roles.find? fun r => r.name == name with
    | none => none
    | some r => (roleLinks roles userID rest).map fun links => ⟨userID, r.id⟩ :: links

/-- The `role_permissions` rows that link role `roleID` to the permissions
named by `names`, in the order of the names; `none` when a name is carried by
no permission row. -/
def permissionLinks (permissions : List Permission) (roleID : Int) :
    List String → Option (List RolePermission)
  | [] => some []
  | name :: rest =>
    match permissions.find? fun p => p.name == name with
    | none => none
    | some p =>
      (permissionLinks permissions roleID rest).map fun links => ⟨roleID, p.id⟩ :: links

/-! ## Tokens (utils/jwt.go over golang-jwt v5)

Time is counted in whole seconds since the epoch, the unit of a JWT
`NumericDate`.  Every call of `time.Now()` is a value of its own: the four
calls in `GenerateJWT` are the fields of an `IssueClock`, the one call of the
validator is the `now` of `ValidateJWT`.  The local zone of the process is a
`Location`.  The process environment
is the value `secret` of `JWT_SECRET_KEY` (empty when unset).  The compact
serialisation (JSON and base64url of each segment) and the MAC are the
library's; they are the components of a `JWTLib`, and the facts used about
them are the fields of `JWTLib.Lawful`. -/

/-- Go `strings.Split` for a one-character separator, on the characters. -/
def splitChars (sep : Char) : List Char → List (List Char)
  | [] => [[]]
  | c :: cs =>
    if c = sep then [] :: splitChars sep cs
    else
      match splitChars sep cs with
      | [] => [[c]]
      | p :: ps => (c :: p) :: ps

/-- Go `strings.Split(s, sep)` for a one-character separator. -/
def stringsSplit (s : String) (sep : Char) : List String :=
  (splitChars sep s.data).map String.mk

/-- Hash functions of the registered signing methods. -/
inductive HashAlg where
  | SHA256
  | SHA384
  | SHA512
  deriving DecidableEq, Repr

/-- The signing methods golang-jwt registers. -/
inductive SigningMethod where
  | HMAC (h : HashAlg)
  | RSA (h : HashAlg)
  | RSAPSS (h : HashAlg)
  | ECDSA (h : HashAlg)
  | EdDSA
  | none
  deriving DecidableEq, Repr

/-- Go `SigningMethod.Alg()`: the name written to the `alg` header. -/
def SigningMethod.Alg : SigningMethod → String
  | .HMAC .SHA256 => "HS256"
  | .HMAC .SHA384 => "HS384"
  | .HMAC .SHA512 => "HS512"
  | .RSA .SHA256 => "RS256"
  | .RSA .SHA384 => "RS384"
  | .RSA .SHA512 => "RS512"
  | .RSAPSS .SHA256 => "PS256"
  | .RSAPSS .SHA384 => "PS384"
  | .RSAPSS .SHA512 => "PS512"
  | .ECDSA .SHA256 => "ES256"
  | .ECDSA .SHA384 => "ES384"
  | .ECDSA .SHA512 => "ES512"
  | .EdDSA => "EdDSA"
  | .none => "none"

/-- Go `jwt.GetSigningMethod`: the registered method of a name, if any. -/
def GetSigningMethod (alg : String) : Option SigningMethod :=
  [SigningMethod.HMAC .SHA256, .HMAC .SHA384, .HMAC .SHA512,
   .RSA .SHA256, .RSA .SHA384, .RSA .SHA512,
   .RSAPSS .SHA256, .RSAPSS .SHA384, .RSAPSS .SHA512,
   .ECDSA .SHA256, .ECDSA .SHA384, .ECDSA .SHA512, .EdDSA, .none].find?
    fun m => m.Alg == alg

/-- Errors of `jwt.ParseWithClaims` and `SignedString`. -/
inductive JWTError where
  | TokenMalformed
  | TokenUnverifiable
  | TokenSignatureInvalid
  | TokenExpired
  | TokenNotValidYet
  | InvalidKeyType
  | NoneSignatureTypeDisallowed
  deriving DecidableEq, Repr

/-- The JOSE header object. -/
structure Header where
  alg : Option String
  typ : Option String
  deriving DecidableEq, Repr

/-- The JSON claims object of a token; `none` is an absent member.  Of the
registered claims only `sub`, `exp`, `nbf` and `iat` are kept (`iss`, `aud`
and `jti` are never set nor checked by this program). -/
structure Payload where
  user_id : Option Int
  username : Option String
  roles : Option (List String)
  sub : Option String
  exp : Option Nat
  nbf : Option Nat
  iat : Option Nat
  deriving DecidableEq, Repr

/-- Go `jwt.RegisteredClaims`, the fields this program sets or the validator
reads. -/
structure RegisteredClaims where
  Subject : String
  ExpiresAt : Option Nat
  NotBefore : Option Nat
  IssuedAt : Option Nat
  deriving DecidableEq, Repr

/-- Go `JWTClaim` (utils/jwt.go 11-16).  A nil `Roles` slice and an empty one
are both the empty list. -/
structure JWTClaim where
  UserID : Int
  Username : String
  Roles : List String
  Registered : RegisteredClaims
  deriving DecidableEq, Repr

/-- Go `json.Marshal` of a `jwt.RegisteredClaims`: every member is
`omitempty`. -/
def marshalRegisteredClaims (rc : RegisteredClaims) : Payload :=
  { user_id := none
    username := none
    roles := none
    sub := if rc.Subject = "" then none else some rc.Subject
    exp := rc.ExpiresAt
    nbf := rc.NotBefore
    iat := rc.IssuedAt }

/-- Go `json.Marshal` of a `JWTClaim`: `user_id`, `username` and `roles` are
always written, the embedded registered claims are `omitempty`. -/
def marshalJWTClaim (c : JWTClaim) : Payload :=
  { marshalRegisteredClaims c.Registered with
    user_id := some c.UserID
    username := some c.Username
    roles := some c.Roles }

/-- The values of a 64-bit Go `int`. -/
abbrev isInt64 (i : Int) : Prop :=
  -9223372036854775808 ≤ i ∧ i < 9223372036854775808

/-- Go `json.Unmarshal` of a claims object into `&JWTClaim{}`: an absent
member leaves the zero value, and a `user_id` that does not fit the 64-bit
`int` of `UserID` is an error (`none`). -/
def unmarshalJWTClaim (p : Payload) : Option JWTClaim :=
  if isInt64 (p.user_id.getD 0) then
    some
      { UserID := p.user_id.getD 0
        Username := p.username.getD ""
        Roles := p.roles.getD []
        Registered :=
          { Subject := p.sub.getD ""
            ExpiresAt := p.exp
            NotBefore := p.nbf
            IssuedAt := p.iat } }
  else none

/-- The parts of golang-jwt this program relies on: the encoding of the three
segments of a compact token (JSON, then base64url), their decoding, and the
HMAC of a signing string under a key. -/
structure JWTLib where
  encodeHeader : Header → String
  decodeHeader : String → Option Header
  encodeClaims : Payload → String
  decodeClaims : String → Option Payload
  encodeSignature : String → String
  decodeSignature : String → Option String
  hmac : HashAlg → String → String → String

/-- Characters of the base64url alphabet. -/
def base64urlChar (c : Char) : Bool :=
  c.isAlphanum || c == '-' || c == '_'

/-- What is assumed of the library: decoding inverts encoding, and an encoded
segment is base64url text. -/
structure JWTLib.Lawful (L : JWTLib) : Prop where
  decodeHeader_encodeHeader : ∀ h, L.decodeHeader (L.encodeHeader h) = some h
  decodeClaims_encodeClaims : ∀ p, L.decodeClaims (L.encodeClaims p) = some p
  decodeSignature_encodeSignature : ∀ s, L.decodeSignature (L.encodeSignature s) = some s
  encodeHeader_base64url : ∀ h, ∀ c ∈ (L.encodeHeader h).data, base64urlChar c = true
  encodeClaims_base64url : ∀ p, ∀ c ∈ (L.encodeClaims p).data, base64urlChar c = true
  encodeSignature_base64url : ∀ s, ∀ c ∈ (L.encodeSignature s).data, base64urlChar c = true

/-- Go `SigningMethod.Sign` with a `[]byte` key, the only kind of key this
program passes. -/
def SigningMethod.Sign (L : JWTLib) (m : SigningMethod) (signingString key : String) :
    Except JWTError String :=
  match m with
  | .HMAC h => .ok (L.hmac h key signingString)
  | .none => .error .NoneSignatureTypeDisallowed
  | _ => .error .InvalidKeyType

/-- Go `SigningMethod.Verify` with a `[]byte` key: the HMAC methods recompute
and compare the MAC; `none` wants `UnsafeAllowNoneSignatureType` and the
asymmetric methods a public key, so both return an error. -/
def SigningMethod.Verify (L : JWTLib) (m : SigningMethod)
    (signingString signature key : String) : Bool :=
  match m with
  | .HMAC h => signature == L.hmac h key signingString
  | _ => false

/-- Go `Token.SigningString` of `jwt.NewWithClaims(method, claims)`: the header
`typ: JWT, alg: method.Alg()` and the claims, encoded and joined by a dot. -/
def SigningString (L : JWTLib) (m : SigningMethod) (p : Payload) : String :=
  L.encodeHeader ⟨some m.Alg, some "JWT"⟩ ++ "." ++ L.encodeClaims p

/-- Go `Token.SignedString(key)`. -/
def SignedString (L : JWTLib) (m : SigningMethod) (p : Payload) (key : String) :
    Except JWTError String :=
  match m.Sign L (SigningString L m p) key with
  | .error err => .error err
  | .ok sig => .ok (SigningString L m p ++ "." ++ L.encodeSignature sig)

/-- Seconds in `time.Hour * 24`. -/
def accessLifetime : Nat := 24 * 3600

/-- The local time zone of the process (`time.Local`): the offset from UTC, in
seconds, in force at an instant. -/
structure Location where
  offset : Int → Int

/-- The zone UTC. -/
def Location.UTC : Location := ⟨fun _ => 0⟩

/-- Go `t.AddDate(0, 0, days)` for an instant `t` of the zone `loc`, in epoch
seconds: the wall clock reading of `t` moved `days` calendar days ahead and
read back as an instant of the zone.  As `time.Date` does, the offset is
looked up at the new reading taken as UTC and then at the instant this first
offset gives. -/
def AddDate (loc : Location) (days : Nat) (t : Nat) : Nat :=
  let wall : Int := (t : Int) + loc.offset t + (days : Int) * 86400
  (wall - loc.offset (wall - loc.offset wall)).toNat

/-- The values of the four calls of `time.Now()` in one run of `GenerateJWT`,
in program order (utils/jwt.go 24, 25, 37, 38). -/
structure IssueClock where
  accessExpiry : Nat
  accessIssued : Nat
  refreshExpiry : Nat
  refreshIssued : Nat
  deriving DecidableEq, Repr

/-- A clock that shows `t` at each of the four calls. -/
def IssueClock.const (t : Nat) : IssueClock := ⟨t, t, t, t⟩

/-- The decimal digit `d` as a character. -/
def decimalChar (d : Nat) : Char :=
  match d with
  | 0 => '0' | 1 => '1' | 2 => '2' | 3 => '3' | 4 => '4'
  | 5 => '5' | 6 => '6' | 7 => '7' | 8 => '8' | _ => '9'

/-- Decimal digits of `n`, least significant first (`fuel` bounds the count). -/
def natDigits : Nat → Nat → List Char
  | 0, _ => []
  | fuel + 1, n =>
    if n < 10 then [decimalChar n]
    else decimalChar (n % 10) :: natDigits fuel (n / 10)

/-- Go `fmt.Sprintf("%d", userID)`: a minus sign for a negative number, then
the decimal digits, most significant first. -/
def formatInt (i : Int) : String :=
  let digits := String.mk (natDigits (i.natAbs + 1) i.natAbs).reverse
  if i < 0 then "-" ++ digits else digits

/-- The claims `GenerateJWT` builds for the access token (utils/jwt.go 19-27). -/
def accessClaims (clock : IssueClock) (userID : Int) (username : String)
    (roles : List String) : JWTClaim :=
  { UserID := userID
    Username := username
    Roles := roles
    Registered :=
      { Subject := ""
        ExpiresAt := some (clock.accessExpiry + accessLifetime)
        NotBefore := none
        IssuedAt := some clock.accessIssued } }

/-- The claims `GenerateJWT` builds for the refresh token (utils/jwt.go 36-40). -/
def refreshClaims (loc : Location) (clock : IssueClock) (userID : Int) : RegisteredClaims :=
  { Subject := formatInt userID
    ExpiresAt := some (AddDate loc 7 clock.refreshExpiry)
    NotBefore := none
    IssuedAt := some clock.refreshIssued }

/-- Go `GenerateJWT` (utils/jwt.go 18-45): the access token, the refresh token
and the error, as the three values the function returns. -/
def GenerateJWT (L : JWTLib) (secret : String) (loc : Location) (clock : IssueClock)
    (userID : Int) (username : String) (roles : List String) :
    String × String × Option JWTError :=
  match SignedString L (.HMAC .SHA256)
      (marshalJWTClaim (accessClaims clock userID username roles)) secret with
  | .error err => ("", "", some err)
  | .ok accessToken =>
    match SignedString L (.HMAC .SHA256)
        (marshalRegisteredClaims (refreshClaims loc clock userID)) secret with
    | .error err => (accessToken, "", some err)
    | .ok refreshTokenString => (accessToken, refreshTokenString, none)

/-- The default `jwt.Validator`: `exp`, when present, must be after `now`;
`nbf`, when present, must not be after `now`; `iat` is not checked. -/
def validateClaims (now : Nat) (claims : JWTClaim) : Except JWTError JWTClaim :=
  match claims.Registered.ExpiresAt with
  | some exp =>
    if now < exp then
      match claims.Registered.NotBefore with
      | some nbf => if now < nbf then .error .TokenNotValidYet else .ok claims
      | none => .ok claims
    else .error .TokenExpired
  | none =>
    match claims.Registered.NotBefore with
    | some nbf => if now < nbf then .error .TokenNotValidYet else .ok claims
    | none => .ok claims

/-- Go `jwt.ParseWithClaims(tokenString, &JWTClaim{}, keyFunc)` with no parser
option and a key function that returns `key` for every token: three segments,
header and claims decoded (the claims into a `JWTClaim`), the method looked up
from the `alg` header, the signature decoded and verified with that method,
then the claims validated. -/
def ParseWithClaims (L : JWTLib) (now : Nat) (tokenString key : String) :
    Except JWTError JWTClaim :=
  match stringsSplit tokenString '.' with
  | [seg0, seg1, seg2] =>
    match L.decodeHeader seg0 with
    | none => .error .TokenMalformed
    | some header =>
      match L.decodeClaims seg1 with
      | none => .error .TokenMalformed
      | some payload =>
        match unmarshalJWTClaim payload with
        | none => .error .TokenMalformed
        | some claims =>
          match header.alg with
          | none => .error .TokenUnverifiable
          | some alg =>
            match GetSigningMethod alg with
            | none => .error .TokenUnverifiable
            | some method =>
              match L.decodeSignature seg2 with
              | none => .error .TokenMalformed
              | some sig =>
                if method.Verify L (seg0 ++ "." ++ seg1) sig key then
                  validateClaims now claims
                else .error .TokenSignatureInvalid
  | _ => .error .TokenMalformed

/-- Go `ValidateJWT` (utils/jwt.go 47-62): the key function returns the secret
whatever the token's method; a token parsed without error is `Valid`. -/
def ValidateJWT (L : JWTLib) (secret : String) (now : Nat) (tokenString : String) :
    Except JWTError JWTClaim :=
  ParseWithClaims L now tokenString secret

/-- The claims object of a compact token, read without verification (Go
`Parser.ParseUnverified`). -/
def tokenPayload (L : JWTLib) (tokenString : String) : Option Payload :=
  match stringsSplit tokenString '.' with
  | [_, seg1, _] => L.decodeClaims seg1
  | _ => none

/-- The header object of a compact token, read without verification. -/
def tokenHeader (L : JWTLib) (tokenString : String) : Option Header :=
  match stringsSplit tokenString '.' with
  | [seg0, _, _] => L.decodeHeader seg0
  | _ => none

/-- Go `AuthMiddleware.Authenticate` (middleware/auth.go 19-44) on the value of
the `Authorization` header (empty when the header is absent). -/
def Authenticate (L : JWTLib) (secret : String) (now : Nat) (authHeader : String)
    (c : Context) : Outcome :=
  if authHeader = "" then
    .abort ⟨401, .error "Authorization header required"⟩
  else
    let parts := stringsSplit authHeader ' '
    if parts.length ≠ 2 ∨ parts.getD 0 "" ≠ "Bearer" then
      .abort ⟨401, .error "Invalid authorization header format"⟩
    else
      match ValidateJWT L secret now (parts.getD 1 "") with
      | .error _ => .abort ⟨401, .error "Invalid or expired token"⟩
      | .ok claims =>
        .next { c with
          user_id := some claims.UserID
          username := some claims.Username
          roles := some claims.Roles }

/-- Go `AuthHandler.RefreshToken` (handlers/auth.go 99-122) on the value of the
`X-Refresh-Token` header (empty when absent); `now` is the clock value the
validator reads, `clock` the values `GenerateJWT` reads afterwards. -/
def RefreshToken (L : JWTLib) (secret : String) (loc : Location) (now : Nat)
    (clock : IssueClock) (refreshToken : String) : Response :=
  if refreshToken = "" then ⟨400, .error "Refresh token required"⟩
  else
    match ValidateJWT L secret now refreshToken with
    | .error _ => ⟨401, .error "Invalid refresh token"⟩
    | .ok claims =>
      match GenerateJWT L secret loc clock claims.UserID claims.Username claims.Roles with
      | (_, _, some _) => ⟨500, .error "Failed to generate tokens"⟩
      | (accessToken, newRefreshToken, none) => ⟨200, .tokens accessToken newRefreshToken⟩

/-! ## Route composition -/

/-- The middleware chain of a permission-gated route (main.go 80 behind
main.go 105): `Authenticate` on a fresh context, then `RequirePermission` on
the context it leaves.  main.go registers it with `view_post`. -/
def protectedRoute (L : JWTLib) (secret : String) (now : Nat) (db : DB) (permission : String)
    (authHeader : String) : Outcome :=
  match Authenticate L secret now authHeader Context.empty with
  | .abort resp => .abort resp
  | .next c => RequirePermission db permission c

/-! ## A concrete library instance

The properties below hold for every lawful `JWTLib`.  `refLib` is one such
library, small enough to evaluate: a segment is written as a list of natural
numbers, each in decimal (least significant digit first) and closed by an
underscore, and the MAC is a keyed checksum. -/

/-- A list of numbers as text: each number's digits, then an underscore. -/
def encodeNats : List Nat → List Char
  | [] => []
  | n :: ns => natDigits (n + 1) n ++ '_' :: encodeNats ns

/-- Reads text written by `encodeNats`; `acc` and `mul` carry the number being
read and the weight of its next digit, `pending` tells whether it has digits. -/
def decodeNatsAux : List Char → Nat → Nat → Bool → Option (List Nat)
  | [], _, _, pending => if pending then none else some []
  | c :: cs, acc, mul, _ =>
    if c = '_' then (decodeNatsAux cs 0 1 false).map fun ns => acc :: ns
    else if c.isDigit then decodeNatsAux cs (acc + mul * (c.toNat - 48)) (mul * 10) true
    else none

/-- Reads text written by `encodeNats`. -/
def decodeNats (cs : List Char) : Option (List Nat) := decodeNatsAux cs 0 1 false

/-- A string as numbers: its length, then its code points. -/
def encString (s : String) : List Nat := s.length :: s.data.map Char.toNat

/-- Reads a string written by `encString`. -/
def readString : List Nat → Option (String × List Nat)
  | [] => none
  | n :: rest =>
    if n ≤ rest.length then some (String.mk ((rest.take n).map Char.ofNat), rest.drop n)
    else none

/-- An optional value as numbers: 0, or 1 and the value. -/
def encOption {α : Type} (enc : α → List Nat) : Option α → List Nat
  | none => [0]
  | some a => 1 :: enc a

/-- Reads an optional value written by `encOption`. -/
def readOption {α : Type} (read : List Nat → Option (α × List Nat)) :
    List Nat → Option (Option α × List Nat)
  | 0 :: rest => some (none, rest)
  | 1 :: rest => (read rest).map fun r => (some r.1, r.2)
  | _ => none

/-- A natural number as numbers: itself. -/
def encNat (n : Nat) : List Nat := [n]

/-- Reads a natural number. -/
def readNat : List Nat → Option (Nat × List Nat)
  | [] => none
  | n :: rest => some (n, rest)

/-- An integer as numbers: a sign flag and the absolute value. -/
def encInt (i : Int) : List Nat := [if i < 0 then 1 else 0, i.natAbs]

/-- Reads an integer written by `encInt`. -/
def readInt : List Nat → Option (Int × List Nat)
  | s :: a :: rest => some (if s = 1 then -(a : Int) else (a : Int), rest)
  | _ => none

/-- The strings of a list, one after the other. -/
def encStringsBody : List String → List Nat
  | [] => []
  | s :: ss => encString s ++ encStringsBody ss

/-- A list of strings as numbers: its length, then the strings. -/
def encStrings (ss : List String) : List Nat := ss.length :: encStringsBody ss

/-- Reads `count` strings. -/
def readStringsBody : Nat → List Nat → Option (List String × List Nat)
  | 0, rest => some ([], rest)
  | count + 1, rest =>
    match readString rest with
    | none => none
    | some (s, rest) =>
      match readStringsBody count rest with
      | none => none
      | some (ss, rest) => some (s :: ss, rest)

/-- Reads a list of strings written by `encStrings`. -/
def readStrings : List Nat → Option (List String × List Nat)
  | [] => none
  | count :: rest => readStringsBody count rest

/-- A header as numbers. -/
def encHeader (h : Header) : List Nat :=
  encOption encString h.alg ++ encOption encString h.typ

/-- Reads a header written by `encHeader`; nothing may follow it. -/
def readHeader (ns : List Nat) : Option Header :=
  match readOption readString ns with
  | none => none
  | some (alg, rest) =>
    match readOption readString rest with
    | some (typ, []) => some ⟨alg, typ⟩
    | _ => none

/-- A claims object as numbers. -/
def encPayload (p : Payload) : List Nat :=
  encOption encInt p.user_id ++ (encOption encString p.username ++
    (encOption encStrings p.roles ++ (encOption encString p.sub ++
      (encOption encNat p.exp ++ (encOption encNat p.nbf ++ encOption encNat p.iat)))))

/-- Reads a claims object written by `encPayload`; nothing may follow it. -/
def readPayload (ns : List Nat) : Option Payload :=
  match readOption readInt ns with
  | none => none
  | some (user_id, rest) =>
  match readOption readString rest with
  | none => none
  | some (username, rest) =>
  match readOption readStrings rest with
  | none => none
  | some (roles, rest) =>
  match readOption readString rest with
  | none => none
  | some (sub, rest) =>
  match readOption readNat rest with
  | none => none
  | some (exp, rest) =>
  match readOption readNat rest with
  | none => none
  | some (nbf, rest) =>
  match readOption readNat rest with
  | some (iat, []) => some ⟨user_id, username, roles, sub, exp, nbf, iat⟩
  | _ => none

/-- Reads a signature written as `encString`; nothing may follow it. -/
def readSignature (ns : List Nat) : Option String :=
  match readString ns with
  | some (s, []) => some s
  | _ => none

/-- Name of a hash function, used by the tag of `refLib`. -/
def HashAlg.name : HashAlg → String
  | .SHA256 => "sha256"
  | .SHA384 => "sha384"
  | .SHA512 => "sha512"

/-- A checksum of the key and the message, the tag of `refLib`. -/
def refTag (key msg : String) : Nat :=
  (key.data ++ ':' :: msg.data).foldl (fun a c => (a * 31 + c.toNat) % 1000003) 7

/-- A concrete library: segments written with `encodeNats`, and the hash name
with a checksum of key and message in place of the HMAC. -/
def refLib : JWTLib :=
  { encodeHeader := fun h => String.mk (encodeNats (encHeader h))
    decodeHeader := fun s => (decodeNats s.data).bind readHeader
    encodeClaims := fun p => String.mk (encodeNats (encPayload p))
    decodeClaims := fun s => (decodeNats s.data).bind readPayload
    encodeSignature := fun s => String.mk (encodeNats (encString s))
    decodeSignature := fun s => (decodeNats s.data).bind readSignature
    hmac := fun h key msg => h.name ++ toString (refTag key msg) }

/-! ## Concrete stores and requests used by the checked instances -/

/-- A store without users in which role 1 (`editor`) grants `view_post`. -/
def noUserStore : Store :=
  { users := []
    roles := [⟨1, "editor"⟩]
    permissions := [⟨1, "view_post"⟩]
    user_roles := []
    role_permissions := [⟨1, 1⟩] }

/-- The same store with role 1 assigned to user 7, who has no `users` row. -/
def orphanStore : Store :=
  { users := []
    roles := [⟨1, "editor"⟩]
    permissions := [⟨1, "view_post"⟩]
    user_roles := [⟨7, 1⟩]
    role_permissions := [⟨1, 1⟩] }

/-- A store with users alice (3, role editor) and bob (4, roles editor and
viewer); editor grants `view_post` and `edit_post`, viewer grants
`view_post`. -/
def sampleStore : Store :=
  { users := [⟨3, "alice", "h1"⟩, ⟨4, "bob", "h2"⟩]
    roles := [⟨1, "editor"⟩, ⟨2, "viewer"⟩]
    permissions := [⟨1, "view_post"⟩, ⟨2, "edit_post"⟩]
    user_roles := [⟨3, 1⟩, ⟨4, 1⟩, ⟨4, 2⟩]
    role_permissions := [⟨1, 1⟩, ⟨1, 2⟩, ⟨2, 1⟩] }

/-- A server that accepts every statement and numbers new users after the
largest id in use. -/
def plainDB (s : Store) : DB :=
  { store := s
    rejects := fun _ _ => false
    autoIncUser := fun t => (t.users.foldl (fun m u => max m u.id) 0) + 1 }

/-- Modelled from the spec: the table declarations are not in the repository;
the data model states "usernames unique".  A server that refuses an `INSERT`
into `users` whose username is taken and accepts every other statement. -/
def uniqueUsernameDB (s : Store) : DB :=
  { plainDB s with
    rejects := fun t st =>
      match st with
      | .insertUser username _ => t.users.any fun u => u.username == username
      | _ => false }

/-- A stand-in for `bcrypt.GenerateFromPassword`: it fails on passwords longer
than 72 bytes and otherwise returns a tagged copy. -/
def sampleBcrypt (password : String) : Option String :=
  if password.utf8ByteSize > 72 then none else some ("$2a$10$" ++ password)

/-- The access token `GenerateJWT` returns under `refLib` for secret `k`, time
1000, user 5 `alice` with role `editor`. -/
def sampleAccessToken : String :=
  "1_5_27_38_05_35_45_1_3_47_78_48_.1_0_5_1_5_79_801_501_99_101_1_1_6_101_001_501_611_111_411_0_1_00478_0_1_0001_.21_511_401_79_05_35_45_35_45_75_55_55_05_"

/-- The refresh token of the same call. -/
def sampleRefreshToken : String :=
  "1_5_27_38_05_35_45_1_3_47_78_48_.0_0_0_1_1_35_1_008506_0_1_0001_.21_511_401_79_05_35_45_35_35_84_65_55_35_"

/-- The same access claims under a header naming HS512, with the HS512 tag of
`refLib` for secret `k`. -/
def sampleHS512Token : String :=
  "1_5_27_38_35_94_05_1_3_47_78_48_.1_0_5_1_5_79_801_501_99_101_1_1_6_101_001_501_611_111_411_0_1_00478_0_1_0001_.21_511_401_79_35_94_05_55_94_05_55_65_25_"

/-- The same access claims under a header naming `none`, with an empty
signature. -/
def sampleNoneToken : String :=
  "1_4_011_111_011_101_1_3_47_78_48_.1_0_5_1_5_79_801_501_99_101_1_1_6_101_001_501_611_111_411_0_1_00478_0_1_0001_.0_"

/-- The access token `RefreshToken` answers at time 2000 to
`sampleRefreshToken`. -/
def reissuedAccessToken : String :=
  "1_5_27_38_05_35_45_1_3_47_78_48_.1_0_0_1_0_1_0_0_1_00488_0_1_0002_.21_511_401_79_05_35_45_25_15_84_25_45_75_"

/-- The refresh token of the same answer. -/
def reissuedRefreshToken : String :=
  "1_5_27_38_05_35_45_1_3_47_78_48_.0_0_0_1_1_84_1_008606_0_1_0002_.21_511_401_79_05_35_45_15_65_65_15_84_94_"

/-- The access token `GenerateJWT` returns under `refLib` for the empty
secret, time 1000, user 5 `alice` with role `editor`. -/
def emptyKeyAccessToken : String :=
  "1_5_27_38_05_35_45_1_3_47_78_48_.1_0_5_1_5_79_801_501_99_101_1_1_6_101_001_501_611_111_411_0_1_00478_0_1_0001_.21_511_401_79_05_35_45_05_84_84_84_75_15_"

/-- The refresh token of the same call. -/
def emptyKeyRefreshToken : String :=
  "1_5_27_38_05_35_45_1_3_47_78_48_.0_0_0_1_1_35_1_008506_0_1_0001_.21_511_401_79_05_35_45_45_55_84_45_15_05_"

/-- A store in which user 5 `alice` holds role 1 (`editor`), which grants
`view_post`. -/
def loginStore : Store :=
  { users := [⟨5, "alice", "h1"⟩]
    roles := [⟨1, "editor"⟩]
    permissions := [⟨1, "view_post"⟩]
    user_roles := [⟨5, 1⟩]
    role_permissions := [⟨1, 1⟩] }

/-- The zone of central Europe around the end of summer time in 2026: two
hours ahead of UTC before 2026-10-25 01:00 UTC (1792890000), one hour after. -/
def berlinAutumn2026 : Location :=
  ⟨fun t => if t < 1792890000 then 7200 else 3600⟩

/-! ## The concrete library is lawful -/

/-- Every character `decimalChar` returns is a decimal digit. -/
theorem decimalChar_isDigit (d : Nat) : (decimalChar d).isDigit = true := by
  unfold decimalChar
  split <;> decide

/-- Below ten, `decimalChar` is inverted by subtracting the code of `0`. -/
theorem decimalChar_value (d : Nat) (h : d < 10) : (decimalChar d).toNat - 48 = d := by
  interval_cases d <;> rfl

/-- A decimal digit is not the underscore. -/
theorem isDigit_ne_underscore (c : Char) (h : c.isDigit = true) : c ≠ '_' := by
  rintro rfl
  revert h
  decide

/-- A decimal digit is base64url text. -/
theorem isDigit_base64url (c : Char) (h : c.isDigit = true) : base64urlChar c = true := by
  simp [base64urlChar, Char.isAlphanum, h]

/-- Reading a number written by `natDigits` and its closing underscore. -/
theorem decodeNatsAux_natDigits (fuel : Nat) :
    ∀ n, n < fuel → ∀ rest acc mul pending,
      decodeNatsAux (natDigits fuel n ++ '_' :: rest) acc mul pending
        = (decodeNatsAux rest 0 1 false).map fun ns => (acc + mul * n) :: ns := by
  induction fuel with
  | zero => intro n h; omega
  | succ fuel ih =>
    intro n hn rest acc mul pending
    unfold natDigits
    by_cases h10 : n < 10
    · simp only [h10, if_true, List.singleton_append]
      rw [decodeNatsAux]
      simp only [isDigit_ne_underscore _ (decimalChar_isDigit n), if_false,
        decimalChar_isDigit, if_true, decimalChar_value n h10]
      rw [decodeNatsAux]
      simp
    · simp only [h10, if_false, List.cons_append]
      rw [decodeNatsAux]
      simp only [isDigit_ne_underscore _ (decimalChar_isDigit _), if_false,
        decimalChar_isDigit, if_true, decimalChar_value (n % 10) (Nat.mod_lt n (by decide))]
      rw [ih (n / 10) (by omega)]
      have : acc + mul * (n % 10) + mul * 10 * (n / 10) = acc + mul * n := by
        have := Nat.mod_add_div n 10
        calc acc + mul * (n % 10) + mul * 10 * (n / 10)
            = acc + mul * (n % 10 + 10 * (n / 10)) := by ring
          _ = acc + mul * n := by rw [this]
      rw [this]

/-- Reading inverts `encodeNats`. -/
theorem decodeNats_encodeNats (ns : List Nat) : decodeNats (encodeNats ns) = some ns := by
  unfold decodeNats
  induction ns with
  | nil => simp [encodeNats, decodeNatsAux]
  | cons n ns ih =>
    unfold encodeNats
    rw [decodeNatsAux_natDigits (n + 1) n (Nat.lt_succ_self n), ih]
    simp

/-- The digits of a number are decimal digits. -/
theorem natDigits_isDigit (fuel : Nat) : ∀ n, ∀ c ∈ natDigits fuel n, c.isDigit = true := by
  induction fuel with
  | zero => intro n c hc; simp [natDigits] at hc
  | succ fuel ih =>
    intro n c hc
    unfold natDigits at hc
    split_ifs at hc
    · rw [List.mem_singleton] at hc
      rw [hc]
      exact decimalChar_isDigit n
    · rcases List.mem_cons.1 hc with h | h
      · rw [h]
        exact decimalChar_isDigit _
      · exact ih _ c h

/-- Text written by `encodeNats` is base64url text. -/
theorem encodeNats_base64url (ns : List Nat) : ∀ c ∈ encodeNats ns, base64urlChar c = true := by
  induction ns with
  | nil => intro c hc; simp [encodeNats] at hc
  | cons n ns ih =>
    intro c hc
    unfold encodeNats at hc
    rcases List.mem_append.1 hc with h | h
    · exact isDigit_base64url c (natDigits_isDigit _ _ c h)
    · rcases List.mem_cons.1 h with h | h
      · rw [h]
        decide
      · exact ih c h

/-- Reading inverts `encString`. -/
theorem readString_encString (s : String) (rest : List Nat) :
    readString (encString s ++ rest) = some (s, rest) := by
  have hlen : (s.data.map Char.toNat).length = s.length := by
    rw [List.length_map]
    rfl
  have hmap : (s.data.map Char.toNat).map Char.ofNat = s.data := by
    rw [List.map_map]
    conv_rhs => rw [← List.map_id s.data]
    apply List.map_congr_left
    intro c _
    simp
  simp only [encString, List.cons_append, readString]
  rw [if_pos (by rw [List.length_append, hlen]; exact Nat.le_add_right _ _)]
  rw [List.take_left' hlen, List.drop_left' hlen, hmap]

/-- Reading inverts `encInt`. -/
theorem readInt_encInt (i : Int) (rest : List Nat) :
    readInt (encInt i ++ rest) = some (i, rest) := by
  simp only [encInt, List.cons_append, List.nil_append, readInt]
  by_cases h : i < 0
  · simp only [h, if_true]
    congr 2
    omega
  · simp only [h, if_false]
    congr 2
    simp
    omega

/-- Reading inverts `encNat`. -/
theorem readNat_encNat (n : Nat) (rest : List Nat) :
    readNat (encNat n ++ rest) = some (n, rest) := rfl

/-- Reading inverts `encStringsBody`. -/
theorem readStringsBody_encStringsBody (ss : List String) (rest : List Nat) :
    readStringsBody ss.length (encStringsBody ss ++ rest) = some (ss, rest) := by
  induction ss with
  | nil => rfl
  | cons s ss ih =>
    simp only [List.length_cons, encStringsBody, List.append_assoc, readStringsBody,
      readString_encString, ih]

/-- Reading inverts `encStrings`. -/
theorem readStrings_encStrings (ss : List String) (rest : List Nat) :
    readStrings (encStrings ss ++ rest) = some (ss, rest) := by
  simp only [encStrings, List.cons_append, readStrings, readStringsBody_encStringsBody]

/-- Reading inverts `encOption` when it inverts the encoding of the value. -/
theorem readOption_encOption {α : Type} (enc : α → List Nat)
    (read : List Nat → Option (α × List Nat))
    (h : ∀ a rest, read (enc a ++ rest) = some (a, rest)) (o : Option α) (rest : List Nat) :
    readOption read (encOption enc o ++ rest) = some (o, rest) := by
  cases o with
  | none => rfl
  | some a => simp [encOption, readOption, h]

/-- Reading inverts `encHeader`. -/
theorem readHeader_encHeader (h : Header) : readHeader (encHeader h) = some h := by
  unfold readHeader encHeader
  rw [readOption_encOption encString readString readString_encString]
  simp only
  have := readOption_encOption encString readString readString_encString h.typ []
  rw [List.append_nil] at this
  rw [this]

/-- Reading inverts `encPayload`. -/
theorem readPayload_encPayload (p : Payload) : readPayload (encPayload p) = some p := by
  unfold readPayload encPayload
  rw [readOption_encOption encInt readInt readInt_encInt]
  simp only
  rw [readOption_encOption encString readString readString_encString]
  simp only
  rw [readOption_encOption encStrings readStrings readStrings_encStrings]
  simp only
  rw [readOption_encOption encString readString readString_encString]
  simp only
  rw [readOption_encOption encNat readNat readNat_encNat]
  simp only
  rw [readOption_encOption encNat readNat readNat_encNat]
  simp only
  have := readOption_encOption encNat readNat readNat_encNat p.iat []
  rw [List.append_nil] at this
  rw [this]

/-- Reading inverts the encoding of a signature. -/
theorem readSignature_encString (s : String) : readSignature (encString s) = some s := by
  unfold readSignature
  have := readString_encString s []
  rw [List.append_nil] at this
  rw [this]

/-- The concrete library `refLib` satisfies the assumptions made of the
library. -/
theorem refLib_lawful : refLib.Lawful where
  decodeHeader_encodeHeader h := by
    simp [refLib, decodeNats_encodeNats, readHeader_encHeader]
  decodeClaims_encodeClaims p := by
    simp [refLib, decodeNats_encodeNats, readPayload_encPayload]
  decodeSignature_encodeSignature s := by
    simp [refLib, decodeNats_encodeNats, readSignature_encString]
  encodeHeader_base64url h := encodeNats_base64url _
  encodeClaims_base64url p := encodeNats_base64url _
  encodeSignature_base64url s := encodeNats_base64url _

/-! ## Properties of the permission resolver and the gate -/

/-- Membership in the rows of the `getRolePermissions` query. -/
theorem mem_rolePermissionsQuery (s : Store) (roleID : Int) (name : String) :
    name ∈ rolePermissionsQuery s roleID ↔
      ∃ p ∈ s.permissions, ∃ rp ∈ s.role_permissions,
        p.id = rp.permission_id ∧ rp.role_id = roleID ∧ p.name = name := by
  unfold rolePermissionsQuery
  simp only [List.mem_flatMap, List.mem_map, List.mem_filter, Bool.and_eq_true, beq_iff_eq]
  constructor
  · rintro ⟨p, hp, rp, ⟨hrp, h1, h2⟩, h3⟩
    exact ⟨p, hp, rp, hrp, h1, h2, h3⟩
  · rintro ⟨p, hp, rp, hrp, h1, h2, h3⟩
    exact ⟨p, hp, rp, ⟨hrp, h1, h2⟩, h3⟩

/-- The `EXISTS` join is true exactly when `users` has a row for the id and
some `user_roles` row of the id names a role whose permission names contain
the requested name. -/
theorem hasPermissionQuery_iff (s : Store) (userID : Int) (permission : String) :
    hasPermissionQuery s userID permission = true ↔
      (∃ u ∈ s.users, u.id = userID) ∧
        ∃ ur ∈ s.user_roles, ur.user_id = userID ∧
          permission ∈ rolePermissionsQuery s ur.role_id := by
  simp only [mem_rolePermissionsQuery]
  unfold hasPermissionQuery
  simp only [List.any_eq_true, Bool.and_eq_true, beq_iff_eq]
  constructor
  · rintro ⟨u, hu, ur, hur, rp, hrp, p, hp, ⟨⟨⟨⟨h1, h2⟩, h3⟩, h4⟩, h5⟩⟩
    exact ⟨⟨u, hu, h4⟩, ur, hur, by rw [← h1, h4], p, hp, rp, hrp, h3.symm, h2.symm, h5⟩
  · rintro ⟨⟨u, hu, h4⟩, ur, hur, h1, p, hp, rp, hrp, h3, h2, h5⟩
    exact ⟨u, hu, ur, hur, rp, hrp, p, hp, ⟨⟨⟨⟨by rw [h4, h1], h2.symm⟩, h3.symm⟩, h4⟩, h5⟩⟩

/-- Claim C1 (amended): for every store state, user id and permission name,
the `EXISTS` join of `RequirePermission` yields true if and only if `users`
has a row with that id and some role assigned to the id in `user_roles` has
the name among the names `getRolePermissions` returns for it; it yields false
for a user with no roles, for roles with no permissions and for a name that
no permission row carries. -/
theorem hasPermission_iff_user_row_and_granting_role (s : Store) (userID : Int)
    (permission : String) :
    (hasPermissionQuery s userID permission = true ↔
      (∃ u ∈ s.users, u.id = userID) ∧
        ∃ ur ∈ s.user_roles, ur.user_id = userID ∧
          permission ∈ rolePermissionsQuery s ur.role_id) ∧
    ((∀ ur ∈ s.user_roles, ur.user_id ≠ userID) →
      hasPermissionQuery s userID permission = false) ∧
    ((∀ ur ∈ s.user_roles, ur.user_id = userID → rolePermissionsQuery s ur.role_id = []) →
      hasPermissionQuery s userID permission = false) ∧
    ((∀ p ∈ s.permissions, p.name ≠ permission) →
      hasPermissionQuery s userID permission = false) := by
  refine ⟨hasPermissionQuery_iff s userID permission, ?_, ?_, ?_⟩
  · intro h
    rw [← Bool.not_eq_true, hasPermissionQuery_iff]
    rintro ⟨-, ur, hur, hid, -⟩
    exact h ur hur hid
  · intro h
    rw [← Bool.not_eq_true, hasPermissionQuery_iff]
    rintro ⟨-, ur, hur, hid, hmem⟩
    rw [h ur hur hid] at hmem
    exact absurd hmem (List.not_mem_nil _)
  · intro h
    rw [← Bool.not_eq_true, hasPermissionQuery_iff]
    rintro ⟨-, ur, -, -, hmem⟩
    obtain ⟨p, hp, -, -, -, -, hname⟩ := (mem_rolePermissionsQuery s _ _).1 hmem
    exact h p hp hname

/-- Claim C1, instance: in `sampleStore` bob (4) holds `view_post` through a
role, and nobody holds a name that no permission row carries. -/
theorem hasPermission_iff_user_row_and_granting_role_witness :
    (hasPermissionQuery sampleStore 4 "view_post" = true ↔
      (∃ u ∈ sampleStore.users, u.id = 4) ∧
        ∃ ur ∈ sampleStore.user_roles, ur.user_id = 4 ∧
          "view_post" ∈ rolePermissionsQuery sampleStore ur.role_id) ∧
    hasPermissionQuery sampleStore 4 "view_post" = true ∧
    hasPermissionQuery sampleStore 4 "delete_post" = false :=
  ⟨(hasPermission_iff_user_row_and_granting_role sampleStore 4 "view_post").1,
   by decide,
   (hasPermission_iff_user_row_and_granting_role sampleStore 4 "delete_post").2.2.2
     (by decide)⟩

/-- Claim C1 as stated fails: in `orphanStore` role 1 is assigned to user 7 in
`user_roles` and `getRolePermissions` returns `view_post` for it, yet the join
over `users` yields false because user 7 has no `users` row.  `UpdateUser`
commits such rows: on a server that accepts its statements, `PUT
/api/users/7` with roles `editor` turns `noUserStore` into `orphanStore`. -/
theorem hasPermission_orphan_assignment :
    hasPermissionQuery orphanStore 7 "view_post" = false ∧
    (∃ ur ∈ orphanStore.user_roles, ur.user_id = 7 ∧
      getRolePermissions (plainDB orphanStore) ur.role_id = .ok ["view_post"] ∧
      "view_post" ∈ rolePermissionsQuery orphanStore ur.role_id) ∧
    UpdateUser (plainDB noUserStore) "7" (some ⟨some "zed", some ["editor"]⟩)
      = (⟨200, .message "User updated successfully"⟩, orphanStore) := by
  refine ⟨by decide, ⟨⟨7, 1⟩, by decide, rfl, by decide⟩, by decide⟩

/-- Claim C3: `RequirePermission` aborts with 401 when the context has no
`user_id`, aborts with 403 when the lookup returns an error or false, and
lets the request continue (context untouched) only when the lookup succeeds
with true. -/
theorem requirePermission_fail_closed (db : DB) (permission : String) (c : Context) :
    (c.user_id = none →
      RequirePermission db permission c = .abort ⟨401, .error "Unauthorized"⟩) ∧
    (∀ userID, c.user_id = some userID →
      (∀ e, queryHasPermission db userID permission = .error e →
        RequirePermission db permission c = .abort ⟨403, .error "Forbidden"⟩) ∧
      (queryHasPermission db userID permission = .ok false →
        RequirePermission db permission c = .abort ⟨403, .error "Forbidden"⟩) ∧
      (queryHasPermission db userID permission = .ok true →
        RequirePermission db permission c = .next c)) ∧
    (∀ c', RequirePermission db permission c = .next c' →
      c' = c ∧ ∃ userID, c.user_id = some userID ∧
        queryHasPermission db userID permission = .ok true ∧
        db.rejects db.store (.selectHasPermission userID permission) = false ∧
        hasPermissionQuery db.store userID permission = true) := by
  refine ⟨?_, ?_, ?_⟩
  · intro h
    simp [RequirePermission, h]
  · intro userID h
    refine ⟨?_, ?_, ?_⟩ <;> intros <;> simp_all [RequirePermission]
  · intro c' h
    unfold RequirePermission at h
    cases hc : c.user_id with
    | none => simp [hc] at h
    | some userID =>
      simp only [hc] at h
      unfold queryHasPermission at h ⊢
      cases hr : db.rejects db.store (.selectHasPermission userID permission) with
      | true => simp [hr] at h
      | false =>
        simp only [hr] at h
        cases hq : hasPermissionQuery db.store userID permission with
        | false => simp [hq] at h
        | true =>
          simp [hq] at h
          exact ⟨h.symm, userID, rfl, by simp [hq, hr]⟩

/-- Claim C3, instance: with `sampleStore` the gate for `edit_post` lets alice
(3) through, answers 401 to a context without `user_id`, and answers 403 when
the server refuses the lookup. -/
theorem requirePermission_fail_closed_witness :
    RequirePermission (plainDB sampleStore) "edit_post" ⟨some 3, some "alice", some ["editor"]⟩
      = .next ⟨some 3, some "alice", some ["editor"]⟩ ∧
    RequirePermission (plainDB sampleStore) "edit_post" Context.empty
      = .abort ⟨401, .error "Unauthorized"⟩ ∧
    RequirePermission { plainDB sampleStore with rejects := fun _ _ => true } "edit_post"
      ⟨some 3, some "alice", some ["editor"]⟩ = .abort ⟨403, .error "Forbidden"⟩ :=
  ⟨((requirePermission_fail_closed (plainDB sampleStore) "edit_post"
      ⟨some 3, some "alice", some ["editor"]⟩).2.1 3 rfl).2.2 (by decide),
   (requirePermission_fail_closed (plainDB sampleStore) "edit_post" Context.empty).1 rfl,
   ((requirePermission_fail_closed { plainDB sampleStore with rejects := fun _ _ => true }
      "edit_post" ⟨some 3, some "alice", some ["editor"]⟩).2.1 3 rfl).1 "query failed" rfl⟩

/-! ## DeleteRole -/

/-- The rows `DeleteRole` commits for role `id`. -/
theorem deleteRole_rows (s : Store) (id : Int) :
    ((s.deleteRolePermissions id).deleteUserRolesByRole id).deleteRole id =
      { users := s.users
        roles := s.roles.filter fun r => r.id != id
        permissions := s.permissions
        user_roles := s.user_roles.filter fun ur => ur.role_id != id
        role_permissions := s.role_permissions.filter fun rp => rp.role_id != id } := rfl

/-- A 200 from `DeleteRole` means the id parsed, a role row matched and the
three deletions were committed. -/
theorem deleteRole_ok_inv (db : DB) (idParam : String)
    (h : (DeleteRole db idParam).1.status = 200) :
    ∃ id, Atoi idParam = some id ∧
      (DeleteRole db idParam).2 =
        ((db.store.deleteRolePermissions id).deleteUserRolesByRole id).deleteRole id := by
  unfold DeleteRole at h ⊢
  cases hid : Atoi idParam with
  | none => simp [hid] at h
  | some id =>
    refine ⟨id, rfl, ?_⟩
    simp only [hid] at h ⊢
    split_ifs at h ⊢ <;> first | rfl | (simp at h)

/-- With a server that accepts every statement, `DeleteRole` of an existing
role answers 200. -/
theorem deleteRole_ok_of_exists (db : DB) (idParam : String) (id : Int)
    (hid : Atoi idParam = some id) (hex : ∃ r ∈ db.store.roles, r.id = id)
    (hdb : ∀ s st, db.rejects s st = false) :
    (DeleteRole db idParam).1 = ⟨200, .message "Role deleted successfully"⟩ := by
  obtain ⟨r, hr, hrid⟩ := hex
  have hpos : (List.filter (fun r => r.id == id) db.store.roles).length ≠ 0 := by
    intro h0
    have hmem : r ∈ List.filter (fun r => r.id == id) db.store.roles :=
      List.mem_filter.2 ⟨hr, by simp [hrid]⟩
    rw [List.length_eq_zero] at h0
    rw [h0] at hmem
    exact absurd hmem (List.not_mem_nil _)
  simp [DeleteRole, hid, hdb, Store.deleteRole, Store.deleteUserRolesByRole,
    Store.deleteRolePermissions, hpos]

/-- Claim C9: for an existing role id `k`, `DeleteRole` succeeds when the
server accepts its statements, and after a successful `DeleteRole` no
`role_permissions`, `user_roles` or `roles` row with id `k` is left, the
rows of other roles and the users and permissions are unchanged, and the
permission check yields false for every user and every permission that none
of the other roles of that user granted. -/
theorem deleteRole_removes_role_and_links (db : DB) (idParam : String) (k : Int)
    (hid : Atoi idParam = some k) (hex : ∃ r ∈ db.store.roles, r.id = k) :
    ((∀ s st, db.rejects s st = false) →
      (DeleteRole db idParam).1 = ⟨200, .message "Role deleted successfully"⟩) ∧
    ((DeleteRole db idParam).1.status = 200 →
      (∀ rp ∈ (DeleteRole db idParam).2.role_permissions, rp.role_id ≠ k) ∧
      (∀ ur ∈ (DeleteRole db idParam).2.user_roles, ur.role_id ≠ k) ∧
      (∀ r ∈ (DeleteRole db idParam).2.roles, r.id ≠ k) ∧
      (∀ userID permission,
        (∀ ur ∈ db.store.user_roles, ur.user_id = userID → ur.role_id ≠ k →
          permission ∉ rolePermissionsQuery db.store ur.role_id) →
        hasPermissionQuery (DeleteRole db idParam).2 userID permission = false) ∧
      (DeleteRole db idParam).2.role_permissions
        = db.store.role_permissions.filter (fun rp => rp.role_id != k) ∧
      (DeleteRole db idParam).2.user_roles
        = db.store.user_roles.filter (fun ur => ur.role_id != k) ∧
      (DeleteRole db idParam).2.roles = db.store.roles.filter (fun r => r.id != k) ∧
      (DeleteRole db idParam).2.users = db.store.users ∧
      (DeleteRole db idParam).2.permissions = db.store.permissions) := by
  refine ⟨deleteRole_ok_of_exists db idParam k hid hex, ?_⟩
  intro hok
  obtain ⟨id, hid', hs⟩ := deleteRole_ok_inv db idParam hok
  rw [hid] at hid'
  cases hid'
  rw [hs, deleteRole_rows]
  refine ⟨?_, ?_, ?_, ?_, rfl, rfl, rfl, rfl, rfl⟩
  · intro rp hrp
    simpa using (List.mem_filter.1 hrp).2
  · intro ur hur
    simpa using (List.mem_filter.1 hur).2
  · intro r hr
    simpa using (List.mem_filter.1 hr).2
  · intro userID permission honly
    rw [← Bool.not_eq_true, hasPermissionQuery_iff]
    rintro ⟨-, ur, hur, huid, hmem⟩
    have hur' := List.mem_filter.1 hur
    have hne : ur.role_id ≠ k := by simpa using hur'.2
    apply honly ur hur'.1 huid hne
    rw [mem_rolePermissionsQuery] at hmem ⊢
    obtain ⟨p, hp, rp, hrp, h1, h2, h3⟩ := hmem
    exact ⟨p, hp, rp, (List.mem_filter.1 hrp).1, h1, h2, h3⟩

/-- Claim C9, instance: deleting role 1 (`editor`) of `sampleStore` answers
200, leaves the rows of role 2 (`viewer`), and leaves bob, who held both roles,
without `edit_post`. -/
theorem deleteRole_removes_role_and_links_witness :
    (DeleteRole (plainDB sampleStore) "1").1 = ⟨200, .message "Role deleted successfully"⟩ ∧
    (DeleteRole (plainDB sampleStore) "1").2 =
      { users := [⟨3, "alice", "h1"⟩, ⟨4, "bob", "h2"⟩]
        roles := [⟨2, "viewer"⟩]
        permissions := [⟨1, "view_post"⟩, ⟨2, "edit_post"⟩]
        user_roles := [⟨4, 2⟩]
        role_permissions := [⟨2, 1⟩] } ∧
    hasPermissionQuery sampleStore 4 "edit_post" = true ∧
    hasPermissionQuery (DeleteRole (plainDB sampleStore) "1").2 4 "edit_post" = false :=
  ⟨(deleteRole_removes_role_and_links (plainDB sampleStore) "1" 1 (by decide)
      ⟨⟨1, "editor"⟩, by decide, rfl⟩).1 (fun _ _ => rfl),
   by decide, by decide,
   ((deleteRole_removes_role_and_links (plainDB sampleStore) "1" 1 (by decide)
      ⟨⟨1, "editor"⟩, by decide, rfl⟩).2 (by decide)).2.2.2.1 4 "edit_post" (by decide)⟩

/-! ## CreateUser -/

/-- The role loop never touches `roles`. -/
theorem assignRoles_roles (db : DB) (userID : Int) (names : List String) :
    ∀ tx tx', assignRoles db userID names tx = .ok tx' → tx'.roles = tx.roles := by
  induction names with
  | nil => intro tx tx' h; simp [assignRoles] at h; rw [← h]
  | cons n rest ih =>
    intro tx tx' h
    unfold assignRoles at h
    split_ifs at h
    cases hr : tx.roleByName n with
    | none => simp [hr] at h
    | some r =>
      simp only [hr] at h
      split_ifs at h
      exact (ih _ _ h).trans rfl

/-- A name carried by no role row is not found by the lookup. -/
theorem roleByName_eq_none (s : Store) (name : String)
    (h : ∀ r ∈ s.roles, r.name ≠ name) : s.roleByName name = none := by
  unfold Store.roleByName
  rw [List.find?_eq_none]
  intro r hr
  simpa using h r hr

/-- The role loop stops with a 400 or a 500 when the list holds a name that no
role row carries. -/
theorem assignRoles_unknown (db : DB) (userID : Int) (name : String) (names : List String)
    (hmem : name ∈ names) :
    ∀ tx, (∀ r ∈ tx.roles, r.name ≠ name) →
      ∃ resp, assignRoles db userID names tx = .error resp ∧
        (resp.status = 400 ∨ resp.status = 500) := by
  induction names with
  | nil => exact absurd hmem (List.not_mem_nil _)
  | cons n rest ih =>
    intro tx hunk
    unfold assignRoles
    by_cases hsel : db.rejects tx (.selectRoleIdByName n) = true
    · exact ⟨⟨400, .error ("Invalid role: " ++ n)⟩, by simp [hsel], Or.inl rfl⟩
    · simp only [hsel, Bool.false_eq_true, if_false]
      cases hr : tx.roleByName n with
      | none => exact ⟨_, rfl, Or.inl rfl⟩
      | some r =>
        simp only
        by_cases hins : db.rejects tx (.insertUserRole userID r.id) = true
        · exact ⟨⟨500, .error "Failed to assign role"⟩, by simp [hins], Or.inr rfl⟩
        · simp only [hins, Bool.false_eq_true, if_false]
          have hne : n ≠ name := by
            rintro rfl
            rw [roleByName_eq_none tx n hunk] at hr
            cases hr
          have hmem' : name ∈ rest := by
            rcases List.mem_cons.1 hmem with h | h
            · exact absurd h.symm hne
            · exact h
          exact ih hmem' _ hunk

/-- With a server that accepts every statement, the role loop stops at the
first name that no role row carries, with the 400 naming it. -/
theorem assignRoles_first_unknown (db : DB) (userID : Int) (bad : String)
    (hdb : ∀ s st, db.rejects s st = false) (roles : List Role) (names : List String) :
    ∀ tx, tx.roles = roles →
      names.find? (fun n => (roles.find? fun r => r.name == n).isNone) = some bad →
      assignRoles db userID names tx = .error ⟨400, .error ("Invalid role: " ++ bad)⟩ := by
  induction names with
  | nil => intro tx _ h; simp at h
  | cons n rest ih =>
    intro tx htx hfind
    unfold assignRoles
    simp only [hdb, Bool.false_eq_true, if_false]
    unfold Store.roleByName
    rw [htx]
    rw [List.find?_cons] at hfind
    cases hr : roles.find? (fun r => r.name == n) with
    | none =>
      simp only [hr, Option.isNone_none, Option.some.injEq] at hfind
      rw [hfind]
    | some r =>
      simp only [hr, Option.isNone_some] at hfind
      exact ih _ htx hfind

/-- Every response of `CreateUser` other than 201 leaves the committed rows
as they were. -/
theorem createUser_rollback (db : DB) (bcrypt : String → Option String)
    (body : Option CreateUserJSON) (h : (CreateUser db bcrypt body).1.status ≠ 201) :
    (CreateUser db bcrypt body).2 = db.store := by
  unfold CreateUser at h ⊢
  cases hb : bindCreateUser body with
  | none => rfl
  | some req =>
    simp only [hb] at h ⊢
    by_cases h0 : db.rejects db.store .begin = true
    · simp [h0]
    · simp only [h0, Bool.false_eq_true, if_false] at h ⊢
      cases hh : bcrypt req.Password with
      | none => rfl
      | some hashed =>
        simp only [hh] at h ⊢
        by_cases h1 : db.rejects db.store (.insertUser req.Username hashed) = true
        · simp [h1]
        · simp only [h1, Bool.false_eq_true, if_false] at h ⊢
          by_cases h2 : db.rejects
              (db.store.insertUser (db.autoIncUser db.store) req.Username hashed)
              .lastInsertId = true
          · simp [h2]
          · simp only [h2, Bool.false_eq_true, if_false] at h ⊢
            cases ha : assignRoles db (db.autoIncUser db.store) req.Roles
                (db.store.insertUser (db.autoIncUser db.store) req.Username hashed) with
            | error resp => rfl
            | ok tx =>
              simp only [ha] at h ⊢
              by_cases h3 : db.rejects tx .commit = true
              · simp [h3]
              · simp [h3] at h

/-- A bound request carries the role list of the body. -/
theorem bindCreateUser_roles (j : CreateUserJSON) (req : CreateUserRequest)
    (h : bindCreateUser (some j) = some req) : j.roles = some req.Roles := by
  unfold bindCreateUser at h
  cases hr : j.roles with
  | none => simp [hr] at h
  | some roles =>
    simp only [hr] at h
    split_ifs at h
    simp only [Option.some.injEq] at h
    rw [← h]

/-- With an unknown role name in the list, `CreateUser` answers 400 or 500. -/
theorem createUser_unknown_status (db : DB) (bcrypt : String → Option String)
    (j : CreateUserJSON) (roles : List String) (name : String)
    (hroles : j.roles = some roles) (hname : name ∈ roles)
    (hunk : ∀ r ∈ db.store.roles, r.name ≠ name) :
    (CreateUser db bcrypt (some j)).1.status = 400 ∨
      (CreateUser db bcrypt (some j)).1.status = 500 := by
  unfold CreateUser
  cases hb : bindCreateUser (some j) with
  | none => exact Or.inl rfl
  | some req =>
    have hreq : req.Roles = roles := by
      have := bindCreateUser_roles j req hb
      rw [hroles] at this
      exact (Option.some.inj this).symm
    simp only
    by_cases h0 : db.rejects db.store .begin = true
    · simp [h0]
    · simp only [h0, Bool.false_eq_true, if_false]
      cases hh : bcrypt req.Password with
      | none => exact Or.inr rfl
      | some hashed =>
        simp only
        by_cases h1 : db.rejects db.store (.insertUser req.Username hashed) = true
        · simp [h1]
        · simp only [h1, Bool.false_eq_true, if_false]
          by_cases h2 : db.rejects
              (db.store.insertUser (db.autoIncUser db.store) req.Username hashed)
              .lastInsertId = true
          · simp [h2]
          · simp only [h2, Bool.false_eq_true, if_false]
            obtain ⟨resp, hresp, hst⟩ := assignRoles_unknown db (db.autoIncUser db.store) name
              req.Roles (hreq ▸ hname)
              (db.store.insertUser (db.autoIncUser db.store) req.Username hashed) hunk
            rw [hresp]
            exact hst

/-- The role loop over a list in two parts runs over the first part, then
over the second. -/
theorem assignRoles_append (db : DB) (userID : Int) (xs ys : List String) :
    ∀ tx, assignRoles db userID (xs ++ ys) tx =
      match assignRoles db userID xs tx with
      | .error resp => .error resp
      | .ok tx' => assignRoles db userID ys tx' := by
  induction xs with
  | nil => intro tx; simp [assignRoles]
  | cons x rest ih =>
    intro tx
    simp only [List.cons_append]
    rw [assignRoles, assignRoles]
    by_cases hsel : db.rejects tx (.selectRoleIdByName x) = true
    · simp [hsel]
    · simp only [hsel, Bool.false_eq_true, if_false]
      cases hr : tx.roleByName x with
      | none => rfl
      | some r =>
        simp only
        by_cases hins : db.rejects tx (.insertUserRole userID r.id) = true
        · simp [hins]
        · simp only [hins, Bool.false_eq_true, if_false]
          exact ih _

/-- The role loop stops with the 400 naming the head of the list when no role
row carries it, whether or not the server answers the lookup. -/
theorem assignRoles_head_unknown (db : DB) (userID : Int) (bad : String) (rest : List String)
    (tx : Store) (hunk : ∀ r ∈ tx.roles, r.name ≠ bad) :
    assignRoles db userID (bad :: rest) tx
      = .error ⟨400, .error ("Invalid role: " ++ bad)⟩ := by
  unfold assignRoles
  rw [roleByName_eq_none tx bad hunk]
  split_ifs <;> rfl

/-- Claim C8 (amended): for every store state and every `CreateUser` request
whose role list holds a name that no role row carries, the call answers 400
or 500 and the committed rows are the rows before the call, also when earlier
names of the list were valid.  The answer is the 400 `Invalid role` naming
such a name when the request binds, `Begin` succeeds, the password hashes,
the insert into `users` and `LastInsertId` succeed and the loop has run
without error over the names before it. -/
theorem createUser_unknown_role_rolls_back (db : DB) (bcrypt : String → Option String)
    (j : CreateUserJSON) (roles : List String) (name : String)
    (hroles : j.roles = some roles) (hname : name ∈ roles)
    (hunk : ∀ r ∈ db.store.roles, r.name ≠ name) :
    (CreateUser db bcrypt (some j)).2 = db.store ∧
    ((CreateUser db bcrypt (some j)).1.status = 400 ∨
      (CreateUser db bcrypt (some j)).1.status = 500) ∧
    (∀ req hashed before after tx,
      bindCreateUser (some j) = some req → roles = before ++ name :: after →
      db.rejects db.store .begin = false →
      bcrypt req.Password = some hashed →
      db.rejects db.store (.insertUser req.Username hashed) = false →
      db.rejects (db.store.insertUser (db.autoIncUser db.store) req.Username hashed)
        .lastInsertId = false →
      assignRoles db (db.autoIncUser db.store) before
        (db.store.insertUser (db.autoIncUser db.store) req.Username hashed) = .ok tx →
      CreateUser db bcrypt (some j)
        = (⟨400, .error ("Invalid role: " ++ name)⟩, db.store)) := by
  have hst := createUser_unknown_status db bcrypt j roles name hroles hname hunk
  refine ⟨?_, hst, ?_⟩
  · apply createUser_rollback
    rcases hst with h | h <;> rw [h] <;> decide
  · intro req hashed before after tx hb hsplit h0 hh h1 h2 hloop
    have hreq : req.Roles = roles := by
      have := bindCreateUser_roles j req hb
      rw [hroles] at this
      exact (Option.some.inj this).symm
    have htx : tx.roles = db.store.roles :=
      (assignRoles_roles db (db.autoIncUser db.store) before
        (db.store.insertUser (db.autoIncUser db.store) req.Username hashed) tx hloop).trans rfl
    have hall : assignRoles db (db.autoIncUser db.store) req.Roles
        (db.store.insertUser (db.autoIncUser db.store) req.Username hashed)
        = .error ⟨400, .error ("Invalid role: " ++ name)⟩ := by
      rw [hreq, hsplit, assignRoles_append, hloop]
      exact assignRoles_head_unknown db _ name after tx (by rw [htx]; exact hunk)
    simp [CreateUser, hb, hh, h0, h1, h2, hall]

/-- Claim C8, instance: a new user `carol` with roles `editor` and `ghost` on
`sampleStore` is answered 400 `Invalid role: ghost` and nothing is committed,
although `editor` was valid, also on a server that would refuse the commit. -/
theorem createUser_unknown_role_rolls_back_witness :
    (CreateUser (plainDB sampleStore) sampleBcrypt
        (some ⟨some "carol", some "secret1", some ["editor", "ghost"]⟩)).2 = sampleStore ∧
    CreateUser (plainDB sampleStore) sampleBcrypt
        (some ⟨some "carol", some "secret1", some ["editor", "ghost"]⟩)
      = (⟨400, .error "Invalid role: ghost"⟩, sampleStore) ∧
    CreateUser { plainDB sampleStore with rejects := fun _ st => st == .commit } sampleBcrypt
        (some ⟨some "carol", some "secret1", some ["editor", "ghost"]⟩)
      = (⟨400, .error "Invalid role: ghost"⟩, sampleStore) :=
  ⟨(createUser_unknown_role_rolls_back (plainDB sampleStore) sampleBcrypt
      ⟨some "carol", some "secret1", some ["editor", "ghost"]⟩ ["editor", "ghost"] "ghost"
      rfl (by decide) (by decide)).1,
   by decide,
   (createUser_unknown_role_rolls_back
      { plainDB sampleStore with rejects := fun _ st => st == .commit } sampleBcrypt
      ⟨some "carol", some "secret1", some ["editor", "ghost"]⟩ ["editor", "ghost"] "ghost"
      rfl (by decide) (by decide)).2.2
      ⟨"carol", "secret1", ["editor", "ghost"]⟩ "$2a$10$secret1" ["editor"] []
      ((sampleStore.insertUser 5 "carol" "$2a$10$secret1").insertUserRole 5 1)
      (by decide) rfl (by decide) (by decide) (by decide) (by decide) (by decide)⟩

/-- Claim C8 as stated fails: on a server that keeps usernames unique, a
request for the taken username `alice` with the unknown role `ghost` is
answered 500 `Failed to create user`, not 400, since the insert into `users`
fails before any role is looked up; the committed rows are unchanged. -/
theorem createUser_unknown_role_taken_username :
    (∃ name ∈ ["ghost"], ∀ r ∈ sampleStore.roles, r.name ≠ name) ∧
    CreateUser (uniqueUsernameDB sampleStore) sampleBcrypt
        (some ⟨some "alice", some "secret1", some ["ghost"]⟩)
      = (⟨500, .error "Failed to create user"⟩, sampleStore) := by
  decide

/-! ## Splitting -/

/-- Text without the separator is a single part. -/
theorem splitChars_of_not_mem (sep : Char) (a : List Char) (h : sep ∉ a) :
    splitChars sep a = [a] := by
  induction a with
  | nil => rfl
  | cons c cs ih =>
    have hc : c ≠ sep := fun e => h (e ▸ List.mem_cons_self _ _)
    have hcs : sep ∉ cs := fun e => h (List.mem_cons_of_mem _ e)
    simp [splitChars, hc, ih hcs]

/-- The first part of a text ends at the first separator. -/
theorem splitChars_append_sep (sep : Char) (a b : List Char) (h : sep ∉ a) :
    splitChars sep (a ++ sep :: b) = a :: splitChars sep b := by
  induction a with
  | nil => simp [splitChars]
  | cons c cs ih =>
    have hc : c ≠ sep := fun e => h (e ▸ List.mem_cons_self _ _)
    have hcs : sep ∉ cs := fun e => h (List.mem_cons_of_mem _ e)
    simp [splitChars, hc, ih hcs]

/-- Base64url text holds no dot. -/
theorem dot_not_mem_of_base64url (s : String) (h : ∀ c ∈ s.data, base64urlChar c = true) :
    '.' ∉ s.data := by
  intro hmem
  have := h '.' hmem
  revert this
  decide

/-- Base64url text holds no space. -/
theorem space_not_mem_of_base64url (s : String) (h : ∀ c ∈ s.data, base64urlChar c = true) :
    ' ' ∉ s.data := by
  intro hmem
  have := h ' ' hmem
  revert this
  decide

/-- Three base64url segments joined by dots split back into the segments. -/
theorem stringsSplit_compact (a b c : String)
    (ha : ∀ x ∈ a.data, base64urlChar x = true) (hb : ∀ x ∈ b.data, base64urlChar x = true)
    (hc : ∀ x ∈ c.data, base64urlChar x = true) :
    stringsSplit (a ++ "." ++ b ++ "." ++ c) '.' = [a, b, c] := by
  unfold stringsSplit
  have hdata : (a ++ "." ++ b ++ "." ++ c).data = a.data ++ '.' :: (b.data ++ '.' :: c.data) := by
    simp [String.data_append]
  rw [hdata, splitChars_append_sep _ _ _ (dot_not_mem_of_base64url a ha),
    splitChars_append_sep _ _ _ (dot_not_mem_of_base64url b hb),
    splitChars_of_not_mem _ _ (dot_not_mem_of_base64url c hc)]
  rfl

/-- A compact token after `Bearer` and a space splits into the scheme and the
token. -/
theorem stringsSplit_bearer (a b c : String)
    (ha : ∀ x ∈ a.data, base64urlChar x = true) (hb : ∀ x ∈ b.data, base64urlChar x = true)
    (hc : ∀ x ∈ c.data, base64urlChar x = true) :
    stringsSplit ("Bearer " ++ (a ++ "." ++ b ++ "." ++ c)) ' '
      = ["Bearer", a ++ "." ++ b ++ "." ++ c] := by
  unfold stringsSplit
  have hdata : ("Bearer " ++ (a ++ "." ++ b ++ "." ++ c)).data
      = "Bearer".data ++ ' ' :: (a ++ "." ++ b ++ "." ++ c).data := by
    simp [String.data_append]
  have hno : ' ' ∉ (a ++ "." ++ b ++ "." ++ c).data := by
    have h1 := space_not_mem_of_base64url a ha
    have h2 := space_not_mem_of_base64url b hb
    have h3 := space_not_mem_of_base64url c hc
    simp [String.data_append, h1, h2, h3]
  rw [hdata, splitChars_append_sep _ _ _ (by decide), splitChars_of_not_mem _ _ hno]
  rfl

/-! ## Signing and parsing -/

/-- The name of a registered method looks the method up. -/
theorem getSigningMethod_Alg (m : SigningMethod) : GetSigningMethod m.Alg = some m := by
  cases m with
  | HMAC h => cases h <;> decide
  | RSA h => cases h <;> decide
  | RSAPSS h => cases h <;> decide
  | ECDSA h => cases h <;> decide
  | EdDSA => decide
  | none => decide

/-- A method found under a name bears that name. -/
theorem getSigningMethod_eq_some (alg : String) (m : SigningMethod)
    (h : GetSigningMethod alg = some m) : m.Alg = alg := by
  unfold GetSigningMethod at h
  have := List.find?_some h
  simpa using this

/-- Signing with an HMAC method returns the signing string, a dot and the
encoded MAC. -/
theorem signedString_hmac (L : JWTLib) (h : HashAlg) (p : Payload) (key : String) :
    SignedString L (.HMAC h) p key
      = .ok (L.encodeHeader ⟨some (SigningMethod.HMAC h).Alg, some "JWT"⟩ ++ "."
          ++ L.encodeClaims p ++ "."
          ++ L.encodeSignature (L.hmac h key
              (L.encodeHeader ⟨some (SigningMethod.HMAC h).Alg, some "JWT"⟩ ++ "."
                ++ L.encodeClaims p))) := rfl

/-- Parsing a token signed with an HMAC method under the same key passes the
signature check; the result is the validation of the claims that were signed,
or `TokenMalformed` when they do not fit a `JWTClaim`. -/
theorem parseWithClaims_signed (L : JWTLib) (hL : L.Lawful) (h : HashAlg) (p : Payload)
    (key : String) (now : Nat) (tok : String)
    (hs : SignedString L (.HMAC h) p key = .ok tok) :
    ParseWithClaims L now tok key =
      match unmarshalJWTClaim p with
      | none => .error .TokenMalformed
      | some claims => validateClaims now claims := by
  rw [signedString_hmac] at hs
  cases hs
  unfold ParseWithClaims
  rw [stringsSplit_compact _ _ _ (hL.encodeHeader_base64url _) (hL.encodeClaims_base64url _)
    (hL.encodeSignature_base64url _)]
  simp only [hL.decodeHeader_encodeHeader, hL.decodeClaims_encodeClaims,
    hL.decodeSignature_encodeSignature, getSigningMethod_Alg, SigningMethod.Verify,
    beq_self_eq_true, if_true]

/-- The claims and header of a token signed with an HMAC method. -/
theorem tokenPayload_signed (L : JWTLib) (hL : L.Lawful) (h : HashAlg) (p : Payload)
    (key : String) (tok : String) (hs : SignedString L (.HMAC h) p key = .ok tok) :
    tokenPayload L tok = some p ∧
      tokenHeader L tok = some ⟨some (SigningMethod.HMAC h).Alg, some "JWT"⟩ := by
  rw [signedString_hmac] at hs
  cases hs
  unfold tokenPayload tokenHeader
  rw [stringsSplit_compact _ _ _ (hL.encodeHeader_base64url _) (hL.encodeClaims_base64url _)
    (hL.encodeSignature_base64url _)]
  simp only [hL.decodeHeader_encodeHeader, hL.decodeClaims_encodeClaims, and_self]

/-- Unmarshalling what `JWTClaim` marshals to gives the claims back when the
user id is a 64-bit `int`. -/
theorem unmarshal_marshalJWTClaim (c : JWTClaim) (hc : isInt64 c.UserID) :
    unmarshalJWTClaim (marshalJWTClaim c) = some c := by
  obtain ⟨u, n, r, ⟨sub, e, nb, ia⟩⟩ := c
  have hc' : isInt64 u := hc
  by_cases hsub : sub = "" <;>
    simp [unmarshalJWTClaim, marshalJWTClaim, marshalRegisteredClaims, hsub, hc'.1, hc'.2]

/-- Unmarshalling registered claims into a `JWTClaim` leaves the user id, the
username and the roles at their zero values. -/
theorem unmarshal_marshalRegisteredClaims (rc : RegisteredClaims) :
    unmarshalJWTClaim (marshalRegisteredClaims rc) = some ⟨0, "", [], rc⟩ := by
  obtain ⟨sub, e, nb, ia⟩ := rc
  by_cases hsub : sub = "" <;>
    simp [unmarshalJWTClaim, marshalRegisteredClaims, hsub]

/-- In a zone whose offset never changes, `AddDate(0, 0, days)` adds `days`
times 86400 seconds. -/
theorem addDate_const_offset (loc : Location) (c : Int) (h : ∀ x, loc.offset x = c)
    (days t : Nat) : AddDate loc days t = t + days * 86400 := by
  unfold AddDate
  simp only [h]
  have : ((t : Int) + c + (days : Int) * 86400 - c) = ((t + days * 86400 : Nat) : Int) := by
    push_cast
    ring
  rw [this, Int.toNat_ofNat]

/-- The decimal text of an integer is not empty. -/
theorem formatInt_ne_empty (i : Int) : formatInt i ≠ "" := by
  have hd : ∀ n, (natDigits (n + 1) n).reverse ≠ [] := by
    intro n
    unfold natDigits
    split_ifs <;> simp
  unfold formatInt
  intro h
  have h2 := congrArg String.data h
  split_ifs at h2
  · simp [String.data_append] at h2
  · exact hd _ h2

/-- Go `GenerateJWT` returns both tokens signed with HS256 and no error. -/
theorem generateJWT_eq (L : JWTLib) (secret : String) (loc : Location) (clock : IssueClock)
    (userID : Int) (username : String) (roles : List String) :
    ∃ a rt,
      SignedString L (.HMAC .SHA256)
        (marshalJWTClaim (accessClaims clock userID username roles)) secret = .ok a ∧
      SignedString L (.HMAC .SHA256)
        (marshalRegisteredClaims (refreshClaims loc clock userID)) secret = .ok rt ∧
      GenerateJWT L secret loc clock userID username roles = (a, rt, none) :=
  ⟨_, _, rfl, rfl, rfl⟩

/-- Validation of the access claims: accepted before the expiry, expired from
the expiry on. -/
theorem validateClaims_access (now : Nat) (clock : IssueClock) (userID : Int)
    (username : String) (roles : List String) :
    validateClaims now (accessClaims clock userID username roles)
      = if now < clock.accessExpiry + accessLifetime then
          .ok (accessClaims clock userID username roles)
        else .error .TokenExpired := by
  simp [validateClaims, accessClaims]

/-- Validation of a refresh token read as a `JWTClaim`. -/
theorem validateClaims_refresh (now : Nat) (loc : Location) (clock : IssueClock)
    (userID : Int) :
    validateClaims now ⟨0, "", [], refreshClaims loc clock userID⟩
      = if now < AddDate loc 7 clock.refreshExpiry then
          .ok ⟨0, "", [], refreshClaims loc clock userID⟩
        else .error .TokenExpired := by
  simp [validateClaims, refreshClaims]

/-- Validating the access token `GenerateJWT` returns for a 64-bit user id. -/
theorem validateJWT_access (L : JWTLib) (hL : L.Lawful) (secret : String) (loc : Location)
    (clock : IssueClock) (now : Nat) (userID : Int) (username : String) (roles : List String)
    (hu : isInt64 userID) :
    ValidateJWT L secret now (GenerateJWT L secret loc clock userID username roles).1
      = if now < clock.accessExpiry + accessLifetime then
          .ok (accessClaims clock userID username roles)
        else .error .TokenExpired := by
  obtain ⟨a, rt, ha, -, hg⟩ := generateJWT_eq L secret loc clock userID username roles
  rw [hg]
  unfold ValidateJWT
  rw [parseWithClaims_signed L hL _ _ _ _ _ ha,
    unmarshal_marshalJWTClaim (accessClaims clock userID username roles) hu]
  exact validateClaims_access now clock userID username roles

/-- Validating the refresh token `GenerateJWT` returns: its signature and
expiry pass like those of an access token, and the claims read from it have
user id 0, an empty username and no roles. -/
theorem validateJWT_refresh (L : JWTLib) (hL : L.Lawful) (secret : String) (loc : Location)
    (clock : IssueClock) (now : Nat) (userID : Int) (username : String)
    (roles : List String) :
    ValidateJWT L secret now (GenerateJWT L secret loc clock userID username roles).2.1
      = if now < AddDate loc 7 clock.refreshExpiry then
          .ok ⟨0, "", [], refreshClaims loc clock userID⟩
        else .error .TokenExpired := by
  obtain ⟨a, rt, -, hr, hg⟩ := generateJWT_eq L secret loc clock userID username roles
  rw [hg]
  unfold ValidateJWT
  rw [parseWithClaims_signed L hL _ _ _ _ _ hr, unmarshal_marshalRegisteredClaims]
  exact validateClaims_refresh now loc clock userID

/-! ## Authenticate -/

/-- On `Bearer`, a space and a token signed with an HMAC method, `Authenticate`
reaches `ValidateJWT` on that token. -/
theorem authenticate_bearer_signed (L : JWTLib) (hL : L.Lawful) (h : HashAlg) (p : Payload)
    (key secret : String) (now : Nat) (tok : String) (c : Context)
    (hs : SignedString L (.HMAC h) p key = .ok tok) :
    Authenticate L secret now ("Bearer " ++ tok) c =
      match ValidateJWT L secret now tok with
      | .error _ => .abort ⟨401, .error "Invalid or expired token"⟩
      | .ok claims => .next ⟨some claims.UserID, some claims.Username, some claims.Roles⟩ := by
  rw [signedString_hmac] at hs
  cases hs
  have hne : ("Bearer " ++ (L.encodeHeader ⟨some (SigningMethod.HMAC h).Alg, some "JWT"⟩ ++ "."
      ++ L.encodeClaims p ++ "." ++ L.encodeSignature (L.hmac h key
        (L.encodeHeader ⟨some (SigningMethod.HMAC h).Alg, some "JWT"⟩ ++ "."
          ++ L.encodeClaims p)))) ≠ "" := by
    intro e
    have := congrArg String.data e
    simp [String.data_append] at this
  unfold Authenticate
  rw [if_neg hne]
  simp only [stringsSplit_bearer _ _ _ (hL.encodeHeader_base64url _)
    (hL.encodeClaims_base64url _) (hL.encodeSignature_base64url _)]
  simp

/-- Claim C2: for every `Authorization` value, `Authenticate` aborts with 401
when the value is empty, or splitting it on the space does not give exactly
two parts, or the first part is not `Bearer`, or `ValidateJWT` fails on the
second part; in every other case it continues with `user_id`, `username` and
`roles` set to the `UserID`, `Username` and `Roles` of the claims `ValidateJWT`
returned. -/
theorem authenticate_401_or_claims (L : JWTLib) (secret : String) (now : Nat)
    (authHeader : String) (c : Context) :
    ((authHeader = "" ∨ (stringsSplit authHeader ' ').length ≠ 2 ∨
        (stringsSplit authHeader ' ').getD 0 "" ≠ "Bearer" ∨
        ∃ e, ValidateJWT L secret now ((stringsSplit authHeader ' ').getD 1 "") = .error e) →
      ∃ body, Authenticate L secret now authHeader c = .abort ⟨401, body⟩) ∧
    (¬ (authHeader = "" ∨ (stringsSplit authHeader ' ').length ≠ 2 ∨
        (stringsSplit authHeader ' ').getD 0 "" ≠ "Bearer" ∨
        ∃ e, ValidateJWT L secret now ((stringsSplit authHeader ' ').getD 1 "") = .error e) →
      ∃ claims, ValidateJWT L secret now ((stringsSplit authHeader ' ').getD 1 "") = .ok claims ∧
        Authenticate L secret now authHeader c
          = .next ⟨some claims.UserID, some claims.Username, some claims.Roles⟩) := by
  unfold Authenticate
  by_cases h1 : authHeader = ""
  · exact ⟨fun _ => ⟨_, by rw [if_pos h1]⟩, fun h => absurd (Or.inl h1) h⟩
  · rw [if_neg h1]
    by_cases h2 : (stringsSplit authHeader ' ').length ≠ 2 ∨
        (stringsSplit authHeader ' ').getD 0 "" ≠ "Bearer"
    · simp only [h2, if_true]
      exact ⟨fun _ => ⟨_, rfl⟩,
        fun h => absurd (h2.elim (fun a => Or.inr (Or.inl a)) fun a => Or.inr (Or.inr (Or.inl a))) h⟩
    · simp only [h2, if_false]
      cases hv : ValidateJWT L secret now ((stringsSplit authHeader ' ').getD 1 "") with
      | error e =>
        exact ⟨fun _ => ⟨_, rfl⟩, fun h => absurd (Or.inr (Or.inr (Or.inr ⟨e, rfl⟩))) h⟩
      | ok claims =>
        refine ⟨?_, fun _ => ⟨claims, rfl, rfl⟩⟩
        rintro (h | h | h | ⟨e, h⟩)
        · exact absurd h h1
        · exact absurd (Or.inl h) h2
        · exact absurd (Or.inr h) h2
        · cases h

set_option maxRecDepth 1000000

/-- Claim C2, instance: under `refLib` the header `Bearer sampleAccessToken`
continues with the identity of the token, and the empty header, a header
without a space and a header with another scheme are answered 401. -/
theorem authenticate_401_or_claims_witness :
    Authenticate refLib "k" 1500 ("Bearer " ++ sampleAccessToken) Context.empty
      = .next ⟨some 5, some "alice", some ["editor"]⟩ ∧
    (∃ body, Authenticate refLib "k" 1500 "" Context.empty = .abort ⟨401, body⟩) ∧
    (∃ body, Authenticate refLib "k" 1500 sampleAccessToken Context.empty
      = .abort ⟨401, body⟩) ∧
    (∃ body, Authenticate refLib "k" 1500 ("Basic " ++ sampleAccessToken) Context.empty
      = .abort ⟨401, body⟩) :=
  ⟨by decide,
   (authenticate_401_or_claims refLib "k" 1500 "" Context.empty).1 (Or.inl rfl),
   (authenticate_401_or_claims refLib "k" 1500 sampleAccessToken Context.empty).1
     (Or.inr (Or.inl (by decide))),
   (authenticate_401_or_claims refLib "k" 1500 ("Basic " ++ sampleAccessToken)
     Context.empty).1 (Or.inr (Or.inr (Or.inl (by decide))))⟩

/-! ## GenerateJWT and ValidateJWT -/

/-- Claim C4: if `GenerateJWT(u, n, r)`, for a user id `u` of Go type `int`,
succeeds with access token `a`, having read the clock value `t0` for the
expiry, then `ValidateJWT(a)` at any time before `t0 + 24h` returns claims
whose user id, username and roles are `u`, `n` and `r`, and at any time from
the expiry on it returns the expired-token error. -/
theorem validateJWT_generated_access_token (L : JWTLib) (hL : L.Lawful) (secret : String)
    (loc : Location) (clock : IssueClock) (u : Int) (n : String) (r : List String)
    (a rt : String) (hu : isInt64 u)
    (hgen : GenerateJWT L secret loc clock u n r = (a, rt, none)) :
    (∀ now, now < clock.accessExpiry + 24 * 3600 →
      ∃ claims, ValidateJWT L secret now a = .ok claims ∧
        claims.UserID = u ∧ claims.Username = n ∧ claims.Roles = r) ∧
    (∀ now, clock.accessExpiry + 24 * 3600 ≤ now →
      ValidateJWT L secret now a = .error .TokenExpired) := by
  have hv := fun now => validateJWT_access L hL secret loc clock now u n r hu
  rw [hgen] at hv
  simp only at hv
  constructor
  · intro now hnow
    refine ⟨accessClaims clock u n r, ?_, rfl, rfl, rfl⟩
    rw [hv now, if_pos (by unfold accessLifetime; omega)]
  · intro now hnow
    rw [hv now, if_neg (by unfold accessLifetime; omega)]

/-- Claim C4, instance: under `refLib` the token issued at time 1000 validates
to user 5 `alice` with role `editor` at time 87399 and is expired at 87400. -/
theorem validateJWT_generated_access_token_witness :
    GenerateJWT refLib "k" Location.UTC (IssueClock.const 1000) 5 "alice" ["editor"]
      = (sampleAccessToken, sampleRefreshToken, none) ∧
    (∃ claims, ValidateJWT refLib "k" 87399 sampleAccessToken = .ok claims ∧
      claims.UserID = 5 ∧ claims.Username = "alice" ∧ claims.Roles = ["editor"]) ∧
    ValidateJWT refLib "k" 87400 sampleAccessToken = .error .TokenExpired :=
  have hgen : GenerateJWT refLib "k" Location.UTC (IssueClock.const 1000) 5 "alice" ["editor"]
      = (sampleAccessToken, sampleRefreshToken, none) := by decide
  ⟨hgen,
   (validateJWT_generated_access_token refLib refLib_lawful "k" Location.UTC
      (IssueClock.const 1000) 5 "alice" ["editor"] sampleAccessToken sampleRefreshToken
      (by decide) hgen).1 87399 (by decide),
   (validateJWT_generated_access_token refLib refLib_lawful "k" Location.UTC
      (IssueClock.const 1000) 5 "alice" ["editor"] sampleAccessToken sampleRefreshToken
      (by decide) hgen).2 87400 (by decide)⟩

/-- Claim C5 (amended): `GenerateJWT` returns without error an access token
whose claims object has `user_id = u` and no subject member, `username = n`,
`roles = r`, `iat` the clock value read for it and `exp` the clock value read
for it plus 24h, and a refresh token whose claims object has the subject `u`
in decimal, `iat` the clock value read for it and `exp` the clock value read
for it moved seven calendar days ahead in the local zone, with no `user_id`,
no `username` and no `roles` member; in a zone whose offset does not change
the seven calendar days are 7 times 24h. -/
theorem generateJWT_payloads (L : JWTLib) (hL : L.Lawful) (secret : String) (loc : Location)
    (clock : IssueClock) (u : Int) (n : String) (r : List String) :
    (GenerateJWT L secret loc clock u n r).2.2 = none ∧
    tokenPayload L (GenerateJWT L secret loc clock u n r).1 =
      some { user_id := some u, username := some n, roles := some r, sub := none,
             exp := some (clock.accessExpiry + 24 * 3600), nbf := none,
             iat := some clock.accessIssued } ∧
    tokenPayload L (GenerateJWT L secret loc clock u n r).2.1 =
      some { user_id := none, username := none, roles := none, sub := some (formatInt u),
             exp := some (AddDate loc 7 clock.refreshExpiry), nbf := none,
             iat := some clock.refreshIssued } ∧
    (∀ c, (∀ x, loc.offset x = c) →
      AddDate loc 7 clock.refreshExpiry = clock.refreshExpiry + 7 * (24 * 3600)) := by
  obtain ⟨a, rt, ha, hr, hg⟩ := generateJWT_eq L secret loc clock u n r
  rw [hg]
  refine ⟨rfl, ?_, ?_, ?_⟩
  · rw [(tokenPayload_signed L hL _ _ _ _ ha).1]
    simp [marshalJWTClaim, marshalRegisteredClaims, accessClaims, accessLifetime]
  · rw [(tokenPayload_signed L hL _ _ _ _ hr).1]
    simp [marshalRegisteredClaims, refreshClaims, formatInt_ne_empty]
  · intro c hc
    rw [addDate_const_offset loc c hc]

/-- Claim C5, instance: the claims objects of the two tokens issued under
`refLib` in UTC at time 1000 for user 5 `alice` with role `editor`. -/
theorem generateJWT_payloads_witness :
    tokenPayload refLib sampleAccessToken =
      some { user_id := some 5, username := some "alice", roles := some ["editor"],
             sub := none, exp := some 87400, nbf := none, iat := some 1000 } ∧
    tokenPayload refLib sampleRefreshToken =
      some { user_id := none, username := none, roles := none, sub := some "5",
             exp := some 605800, nbf := none, iat := some 1000 } ∧
    AddDate Location.UTC 7 1000 = 1000 + 7 * (24 * 3600) :=
  have hgen : GenerateJWT refLib "k" Location.UTC (IssueClock.const 1000) 5 "alice" ["editor"]
      = (sampleAccessToken, sampleRefreshToken, none) := by decide
  have h := generateJWT_payloads refLib refLib_lawful "k" Location.UTC (IssueClock.const 1000)
    5 "alice" ["editor"]
  ⟨by rw [hgen] at h; exact h.2.1, by rw [hgen] at h; exact h.2.2.1,
   h.2.2.2 0 (fun _ => rfl)⟩

/-- Claim C5 as stated fails: the claims object of the access token
`GenerateJWT` returns for user 5 has no subject member (the id is the
`user_id` member); in the zone `berlinAutumn2026` the refresh token issued on
2026-10-20 12:00 UTC expires 608400 seconds later, one hour more than 7 times
24h; and when the clock ticks between the calls of `time.Now()` the access
token expires less than 24h after its `iat`. -/
theorem generateJWT_access_payload_no_subject :
    GenerateJWT refLib "k" Location.UTC (IssueClock.const 1000) 5 "alice" ["editor"]
      = (sampleAccessToken, sampleRefreshToken, none) ∧
    (tokenPayload refLib sampleAccessToken).map (fun p => (p.sub, p.user_id))
      = some (none, some 5) ∧
    (tokenPayload refLib
        (GenerateJWT refLib "k" berlinAutumn2026 (IssueClock.const 1792497600) 5 "alice"
          ["editor"]).2.1).map (fun p => p.exp)
      = some (some (1792497600 + 608400)) ∧
    (tokenPayload refLib
        (GenerateJWT refLib "k" Location.UTC ⟨1000, 1001, 1001, 1002⟩ 5 "alice"
          ["editor"]).1).map (fun p => (p.iat, p.exp))
      = some (some 1001, some (1000 + 24 * 3600)) := by
  decide

/-! ## Refresh tokens -/

/-- What `Authenticate` does with `Bearer` and a refresh token of
`GenerateJWT`. -/
theorem authenticate_refresh_eq (L : JWTLib) (hL : L.Lawful) (secret : String)
    (loc : Location) (clock : IssueClock) (now : Nat) (u : Int) (n : String)
    (r : List String) (c : Context) :
    Authenticate L secret now ("Bearer " ++ (GenerateJWT L secret loc clock u n r).2.1) c
      = if now < AddDate loc 7 clock.refreshExpiry then .next ⟨some 0, some "", some []⟩
        else .abort ⟨401, .error "Invalid or expired token"⟩ := by
  have hv := validateJWT_refresh L hL secret loc clock now u n r
  obtain ⟨a, rt, -, hr, hg⟩ := generateJWT_eq L secret loc clock u n r
  rw [hg] at hv ⊢
  rw [authenticate_bearer_signed L hL _ _ _ secret now rt c hr]
  simp only at hv ⊢
  rw [hv]
  split_ifs <;> rfl

/-- What `RefreshToken` answers to a refresh token of `GenerateJWT` that has
not expired: the tokens `GenerateJWT` issues for user id 0, an empty username
and no roles. -/
theorem refreshToken_generated (L : JWTLib) (hL : L.Lawful) (secret : String)
    (loc : Location) (clock clock' : IssueClock) (now : Nat) (u : Int) (n : String)
    (r : List String) (hnow : now < AddDate loc 7 clock.refreshExpiry) :
    RefreshToken L secret loc now clock' (GenerateJWT L secret loc clock u n r).2.1
      = ⟨200, .tokens (GenerateJWT L secret loc clock' 0 "" []).1
          (GenerateJWT L secret loc clock' 0 "" []).2.1⟩ := by
  have hv := validateJWT_refresh L hL secret loc clock now u n r
  rw [if_pos hnow] at hv
  obtain ⟨a, rt, -, hr, hg⟩ := generateJWT_eq L secret loc clock u n r
  rw [hg] at hv ⊢
  simp only at hv ⊢
  have hne : rt ≠ "" := by
    rw [signedString_hmac] at hr
    cases hr
    intro e
    have := congrArg String.data e
    simp [String.data_append] at this
  unfold RefreshToken
  rw [if_neg hne, hv]
  obtain ⟨a', rt', -, -, hg'⟩ := generateJWT_eq L secret loc clock' 0 "" []
  simp only
  rw [hg']

/-- Claim C6 (amended): for every refresh token `rt` returned by
`GenerateJWT`, whatever user it was issued to, a request with header
`Authorization: Bearer rt` is admitted by `Authenticate` as long as `rt` has
not expired, with user id 0, an empty username and empty roles attached to
the context; from the expiry on it is answered 401.  The expiry is the clock
value `GenerateJWT` read for it moved seven calendar days ahead in the local
zone. -/
theorem authenticate_admits_refresh_token (L : JWTLib) (hL : L.Lawful) (secret : String)
    (loc : Location) (clock : IssueClock) (now : Nat) (u : Int) (n : String)
    (r : List String) (c : Context) :
    (tokenPayload L (GenerateJWT L secret loc clock u n r).2.1).map (fun p => p.exp)
      = some (some (AddDate loc 7 clock.refreshExpiry)) ∧
    (now < AddDate loc 7 clock.refreshExpiry →
      Authenticate L secret now ("Bearer " ++ (GenerateJWT L secret loc clock u n r).2.1) c
        = .next ⟨some 0, some "", some []⟩) ∧
    (AddDate loc 7 clock.refreshExpiry ≤ now →
      Authenticate L secret now ("Bearer " ++ (GenerateJWT L secret loc clock u n r).2.1) c
        = .abort ⟨401, .error "Invalid or expired token"⟩) := by
  rw [authenticate_refresh_eq L hL]
  refine ⟨?_, ?_, ?_⟩
  · obtain ⟨a, rt, -, hr, hg⟩ := generateJWT_eq L secret loc clock u n r
    rw [hg]
    simp only
    rw [(tokenPayload_signed L hL _ _ _ _ hr).1]
    simp [marshalRegisteredClaims, refreshClaims]
  · intro h
    rw [if_pos h]
  · intro h
    rw [if_neg (by omega)]

/-- Claim C6, instance: under `refLib` in UTC the refresh token issued at time
1000 is admitted at time 1500 and answered 401 at time 605800. -/
theorem authenticate_admits_refresh_token_witness :
    Authenticate refLib "k" 1500
        ("Bearer " ++ (GenerateJWT refLib "k" Location.UTC (IssueClock.const 1000) 5 "alice"
          ["editor"]).2.1) Context.empty
      = .next ⟨some 0, some "", some []⟩ ∧
    Authenticate refLib "k" 605800
        ("Bearer " ++ (GenerateJWT refLib "k" Location.UTC (IssueClock.const 1000) 5 "alice"
          ["editor"]).2.1) Context.empty
      = .abort ⟨401, .error "Invalid or expired token"⟩ :=
  ⟨(authenticate_admits_refresh_token refLib refLib_lawful "k" Location.UTC
      (IssueClock.const 1000) 1500 5 "alice" ["editor"] Context.empty).2.1 (by decide),
   (authenticate_admits_refresh_token refLib refLib_lawful "k" Location.UTC
      (IssueClock.const 1000) 605800 5 "alice" ["editor"] Context.empty).2.2 (by decide)⟩

/-- Claim C6 as stated fails: `sampleRefreshToken` is the refresh token
`GenerateJWT` returns for user 5, and the header `Bearer sampleRefreshToken`
is not answered 401: `Authenticate` calls the next handler with `user_id` 0,
an empty `username` and empty `roles` in the context. -/
theorem authenticate_refresh_token_not_401 :
    (GenerateJWT refLib "k" Location.UTC (IssueClock.const 1000) 5 "alice" ["editor"]).2.1
      = sampleRefreshToken ∧
    Authenticate refLib "k" 1500 ("Bearer " ++ sampleRefreshToken) Context.empty
      = .next ⟨some 0, some "", some []⟩ := by
  decide

/-- Claim C7, evaluated: for the refresh token `GenerateJWT` returned for user 5
`alice`, not yet expired, `RefreshToken` answers 200 with an access token that
validates to user id 0 (not 5) and a refresh token whose subject is `0`. -/
theorem refreshToken_reissues_for_user_zero :
    (GenerateJWT refLib "k" Location.UTC (IssueClock.const 1000) 5 "alice" ["editor"]).2.1
      = sampleRefreshToken ∧
    RefreshToken refLib "k" Location.UTC 2000 (IssueClock.const 2000) sampleRefreshToken
      = ⟨200, .tokens reissuedAccessToken reissuedRefreshToken⟩ ∧
    ValidateJWT refLib "k" 2000 reissuedAccessToken
      = .ok ⟨0, "", [], ⟨"", some 88400, none, some 2000⟩⟩ ∧
    tokenPayload refLib reissuedRefreshToken =
      some { user_id := none, username := none, roles := none, sub := some "0",
             exp := some 606800, nbf := none, iat := some 2000 } := by
  decide

/-! ## Signing algorithm -/

/-- A registered method whose name is none of HS256, HS384 and HS512 is not
an HMAC method. -/
theorem verify_false_of_not_hmac (L : JWTLib) (m : SigningMethod)
    (h256 : m.Alg ≠ "HS256") (h384 : m.Alg ≠ "HS384") (h512 : m.Alg ≠ "HS512")
    (text sig key : String) : m.Verify L text sig key = false := by
  cases m with
  | HMAC h =>
    cases h
    · exact absurd rfl h256
    · exact absurd rfl h384
    · exact absurd rfl h512
  | RSA h => rfl
  | RSAPSS h => rfl
  | ECDSA h => rfl
  | EdDSA => rfl
  | none => rfl

/-- A token whose header names an algorithm other than HS256, HS384 and HS512
is refused. -/
theorem validateJWT_not_hmac (L : JWTLib) (secret : String) (now : Nat) (tok alg : String)
    (halg : (tokenHeader L tok).bind (fun h => h.alg) = some alg)
    (h256 : alg ≠ "HS256") (h384 : alg ≠ "HS384") (h512 : alg ≠ "HS512") :
    ∃ e, ValidateJWT L secret now tok = .error e := by
  unfold tokenHeader at halg
  unfold ValidateJWT ParseWithClaims
  split
  · rename_i seg0 seg1 seg2 hsplit
    rw [hsplit] at halg
    simp only at halg
    cases hh : L.decodeHeader seg0 with
    | none => rw [hh] at halg; simp at halg
    | some header =>
      rw [hh] at halg
      simp only [Option.some_bind] at halg
      simp only
      cases hc : L.decodeClaims seg1 with
      | none => exact ⟨_, rfl⟩
      | some payload =>
        simp only
        cases hu : unmarshalJWTClaim payload with
        | none => exact ⟨_, rfl⟩
        | some claims =>
          simp only [halg]
          cases hm : GetSigningMethod alg with
          | none => exact ⟨_, rfl⟩
          | some m =>
            simp only
            cases hsig : L.decodeSignature seg2 with
            | none => exact ⟨_, rfl⟩
            | some sig =>
              have hname := getSigningMethod_eq_some alg m hm
              simp only [verify_false_of_not_hmac L m (hname ▸ h256) (hname ▸ h384)
                (hname ▸ h512), Bool.false_eq_true, if_false]
              exact ⟨_, rfl⟩
  · exact ⟨_, rfl⟩

/-- Claim C10 (amended): `ValidateJWT` returns an error and no claims for every
token string whose header names an algorithm other than HS256, HS384 and
HS512 (`none`, the asymmetric methods, unknown names); it does not pin HS256:
a token whose header names HS384 or HS512 and whose signature is the correct
MAC of that algorithm under the configured secret passes the signature check
and is treated like an HS256 token: its claims are validated and returned, or
it is refused as malformed when its `user_id` does not fit a 64-bit `int`. -/
theorem validateJWT_accepts_hmac_family_only (L : JWTLib) (hL : L.Lawful) (secret : String)
    (now : Nat) :
    (∀ tok alg, (tokenHeader L tok).bind (fun h => h.alg) = some alg →
      alg ≠ "HS256" → alg ≠ "HS384" → alg ≠ "HS512" →
      ∃ e, ValidateJWT L secret now tok = .error e) ∧
    (∀ h p tok, SignedString L (.HMAC h) p secret = .ok tok →
      tokenHeader L tok = some ⟨some (SigningMethod.HMAC h).Alg, some "JWT"⟩ ∧
      ValidateJWT L secret now tok =
        match unmarshalJWTClaim p with
        | none => .error .TokenMalformed
        | some claims => validateClaims now claims) ∧
    (∀ h (claims : JWTClaim) tok, isInt64 claims.UserID →
      SignedString L (.HMAC h) (marshalJWTClaim claims) secret = .ok tok →
      ValidateJWT L secret now tok = validateClaims now claims) := by
  refine ⟨fun tok alg => validateJWT_not_hmac L secret now tok alg, ?_, ?_⟩
  · intro h p tok hs
    exact ⟨(tokenPayload_signed L hL h p secret tok hs).2,
      parseWithClaims_signed L hL h p secret now tok hs⟩
  · intro h claims tok hu hs
    unfold ValidateJWT
    rw [parseWithClaims_signed L hL h _ secret now tok hs, unmarshal_marshalJWTClaim claims hu]

/-- Claim C10, instance: under `refLib` the token naming `none` is refused. -/
theorem validateJWT_accepts_hmac_family_only_witness :
    ∃ e, ValidateJWT refLib "k" 1500 sampleNoneToken = .error e :=
  (validateJWT_accepts_hmac_family_only refLib refLib_lawful "k" 1500).1 sampleNoneToken
    "none" (by decide) (by decide) (by decide) (by decide)

/-- Claim C10 as stated fails: the header of `sampleHS512Token` names HS512,
not HS256, its signature is the HS512 tag under the secret `k`, and
`ValidateJWT` returns its claims. -/
theorem validateJWT_accepts_hs512 :
    tokenHeader refLib sampleHS512Token = some ⟨some "HS512", some "JWT"⟩ ∧
    SignedString refLib (.HMAC .SHA512)
      (marshalJWTClaim (accessClaims (IssueClock.const 1000) 5 "alice" ["editor"])) "k"
      = .ok sampleHS512Token ∧
    ValidateJWT refLib "k" 1500 sampleHS512Token
      = .ok ⟨5, "alice", ["editor"], ⟨"", some 87400, none, some 1000⟩⟩ := by
  decide

/-! ## UpdateUser and UpdateRole -/

/-- A role loop that runs to its end has appended the links of the names. -/
theorem assignRoles_ok_links (db : DB) (userID : Int) (names : List String) :
    ∀ tx tx', assignRoles db userID names tx = .ok tx' →
      ∃ links, roleLinks tx.roles userID names = some links ∧
        tx' = { tx with user_roles := tx.user_roles ++ links } := by
  induction names with
  | nil =>
    intro tx tx' h
    simp only [assignRoles, Except.ok.injEq] at h
    exact ⟨[], rfl, by rw [← h, List.append_nil]⟩
  | cons n rest ih =>
    intro tx tx' h
    unfold assignRoles at h
    split_ifs at h
    cases hr : tx.roleByName n with
    | none => simp [hr] at h
    | some r =>
      simp only [hr] at h
      split_ifs at h
      obtain ⟨links, hl, htx⟩ := ih _ _ h
      have hr' : tx.roles.find? (fun r => r.name == n) = some r := hr
      have hl' : roleLinks tx.roles userID rest = some links := hl
      refine ⟨⟨userID, r.id⟩ :: links, ?_, ?_⟩
      · simp only [roleLinks, hr', hl', Option.map_some']
      · rw [htx]
        simp [Store.insertUserRole]

/-- A role loop that stops early answers 400 or 500. -/
theorem assignRoles_error_status (db : DB) (userID : Int) (names : List String) :
    ∀ tx resp, assignRoles db userID names tx = .error resp →
      resp.status = 400 ∨ resp.status = 500 := by
  induction names with
  | nil => intro tx resp h; simp [assignRoles] at h
  | cons n rest ih =>
    intro tx resp h
    unfold assignRoles at h
    split_ifs at h
    · simp only [Except.error.injEq] at h
      rw [← h]; exact Or.inl rfl
    · cases hr : tx.roleByName n with
      | none =>
        simp only [hr, Except.error.injEq] at h
        rw [← h]; exact Or.inl rfl
      | some r =>
        simp only [hr] at h
        split_ifs at h
        · simp only [Except.error.injEq] at h
          rw [← h]; exact Or.inr rfl
        · exact ih _ _ h

/-- With a server that accepts every statement, the role loop runs to its end
when every name is carried by a role row. -/
theorem assignRoles_accept (db : DB) (userID : Int)
    (hdb : ∀ s st, db.rejects s st = false) (names : List String) :
    ∀ tx links, roleLinks tx.roles userID names = some links →
      assignRoles db userID names tx = .ok { tx with user_roles := tx.user_roles ++ links } := by
  induction names with
  | nil =>
    intro tx links h
    simp only [roleLinks, Option.some.injEq] at h
    simp [assignRoles, ← h]
  | cons n rest ih =>
    intro tx links h
    unfold roleLinks at h
    unfold assignRoles
    simp only [hdb, Bool.false_eq_true, if_false]
    unfold Store.roleByName
    cases hr : tx.roles.find? (fun r => r.name == n) with
    | none => simp [hr] at h
    | some r =>
      simp only [hr] at h ⊢
      cases hl : roleLinks tx.roles userID rest with
      | none => simp [hl] at h
      | some links' =>
        simp only [hl, Option.map_some', Option.some.injEq] at h
        have := ih (tx.insertUserRole userID r.id) links' hl
        rw [this, ← h]
        simp [Store.insertUserRole]

/-- The links of a user are rows of that user. -/
theorem roleLinks_user_id (roles : List Role) (userID : Int) (names : List String) :
    ∀ links, roleLinks roles userID names = some links → ∀ l ∈ links, l.user_id = userID := by
  induction names with
  | nil =>
    intro links h l hl
    simp only [roleLinks, Option.some.injEq] at h
    rw [← h] at hl
    exact absurd hl (List.not_mem_nil _)
  | cons n rest ih =>
    intro links h l hl
    unfold roleLinks at h
    cases hr : roles.find? (fun r => r.name == n) with
    | none => simp [hr] at h
    | some r =>
      simp only [hr] at h
      cases hrest : roleLinks roles userID rest with
      | none => simp [hrest] at h
      | some links' =>
        simp only [hrest, Option.map_some', Option.some.injEq] at h
        rw [← h] at hl
        rcases List.mem_cons.1 hl with e | e
        · rw [e]
        · exact ih links' hrest l e

/-- A name carried by no role row has no links. -/
theorem roleLinks_unknown (roles : List Role) (userID : Int) (name : String)
    (hunk : ∀ r ∈ roles, r.name ≠ name) (names : List String) (hmem : name ∈ names) :
    roleLinks roles userID names = none := by
  induction names with
  | nil => exact absurd hmem (List.not_mem_nil _)
  | cons n rest ih =>
    unfold roleLinks
    cases hr : roles.find? (fun r => r.name == n) with
    | none => rfl
    | some r =>
      simp only
      have hne : n ≠ name := by
        rintro rfl
        have := List.find?_some hr
        have hm := List.mem_of_find?_eq_some hr
        exact hunk r hm (by simpa using this)
      rcases List.mem_cons.1 hmem with e | e
      · exact absurd e.symm hne
      · rw [ih e]; rfl

/-- After the old rows of a user are deleted and the links appended, the rows
of the user are the links. -/
theorem filter_user_links (old links : List UserRole) (userID : Int)
    (h : ∀ l ∈ links, l.user_id = userID) :
    (old.filter (fun ur => ur.user_id != userID) ++ links).filter
      (fun ur => ur.user_id == userID) = links := by
  rw [List.filter_append, List.filter_filter]
  have h1 : old.filter (fun ur => (ur.user_id == userID && ur.user_id != userID)) = [] := by
    rw [List.filter_eq_nil_iff]
    intro ur _
    by_cases e : ur.user_id = userID <;> simp [e]
  have h2 : links.filter (fun ur => ur.user_id == userID) = links := by
    rw [List.filter_eq_self]
    intro l hl
    simp [h l hl]
  rw [h1, h2, List.nil_append]

/-- A bound update request carries the username and the role list of the
body. -/
theorem bindUpdateUser_some (j : UpdateUserJSON) (req : UpdateUserRequest)
    (h : bindUpdateUser (some j) = some req) :
    req.Username = j.username.getD "" ∧ req.Roles = j.roles := by
  unfold bindUpdateUser at h
  simp only at h
  split_ifs at h
  simp only [Option.some.injEq] at h
  rw [← h]
  exact ⟨rfl, rfl⟩

/-- Every response of `UpdateUser` is either the 200 with the username set and
the rows of the user replaced by the links of the names, or another status
with the committed rows as they were. -/
theorem updateUser_cases (db : DB) (idParam : String) (j : UpdateUserJSON)
    (names : List String) (hroles : j.roles = some names) :
    (∃ id links, Atoi idParam = some id ∧ bindUpdateUser (some j) ≠ none ∧
      roleLinks db.store.roles id names = some links ∧
      UpdateUser db idParam (some j) =
        (⟨200, .message "User updated successfully"⟩,
          { db.store.updateUsername id (j.username.getD "") with
            user_roles := db.store.user_roles.filter (fun ur => ur.user_id != id) ++ links })) ∨
    (((UpdateUser db idParam (some j)).1.status = 400 ∨
        (UpdateUser db idParam (some j)).1.status = 500) ∧
      (UpdateUser db idParam (some j)).2 = db.store) := by
  unfold UpdateUser
  cases hid : Atoi idParam with
  | none => exact Or.inr ⟨Or.inl rfl, rfl⟩
  | some id =>
    simp only
    cases hb : bindUpdateUser (some j) with
    | none => exact Or.inr ⟨Or.inl rfl, rfl⟩
    | some req =>
      obtain ⟨hname, hr⟩ := bindUpdateUser_some j req hb
      rw [hroles] at hr
      simp only [hr, hname]
      by_cases h0 : db.rejects db.store .begin = true
      · simp [h0]
      · simp only [h0, Bool.false_eq_true, if_false]
        by_cases h1 : db.rejects db.store (.updateUsername (j.username.getD "") id) = true
        · simp [h1]
        · simp only [h1, Bool.false_eq_true, if_false]
          by_cases h2 : db.rejects (db.store.updateUsername id (j.username.getD ""))
              (.deleteUserRolesByUser id) = true
          · simp [h2]
          · simp only [h2, Bool.false_eq_true, if_false]
            cases ha : assignRoles db id names
                ((db.store.updateUsername id (j.username.getD "")).deleteUserRolesByUser id) with
            | error resp =>
              exact Or.inr ⟨assignRoles_error_status db id names _ resp ha, rfl⟩
            | ok tx =>
              simp only
              by_cases h3 : db.rejects tx .commit = true
              · simp [h3]
              · simp only [h3, Bool.false_eq_true, if_false]
                obtain ⟨links, hl, htx⟩ := assignRoles_ok_links db id names _ _ ha
                exact Or.inl ⟨id, links, rfl, by simp, hl, by rw [htx]; rfl⟩

/-- A permission loop that runs to its end has appended the links of the
names. -/
theorem assignPermissions_ok_links (db : DB) (roleID : Int) (names : List String) :
    ∀ tx tx', assignPermissions db roleID names tx = .ok tx' →
      ∃ links, permissionLinks tx.permissions roleID names = some links ∧
        tx' = { tx with role_permissions := tx.role_permissions ++ links } := by
  induction names with
  | nil =>
    intro tx tx' h
    simp only [assignPermissions, Except.ok.injEq] at h
    exact ⟨[], rfl, by rw [← h, List.append_nil]⟩
  | cons n rest ih =>
    intro tx tx' h
    unfold assignPermissions at h
    split_ifs at h
    cases hp : tx.permissionByName n with
    | none => simp [hp] at h
    | some p =>
      simp only [hp] at h
      split_ifs at h
      obtain ⟨links, hl, htx⟩ := ih _ _ h
      have hp' : tx.permissions.find? (fun p => p.name == n) = some p := hp
      have hl' : permissionLinks tx.permissions roleID rest = some links := hl
      refine ⟨⟨roleID, p.id⟩ :: links, ?_, ?_⟩
      · simp only [permissionLinks, hp', hl', Option.map_some']
      · rw [htx]
        simp [Store.insertRolePermission]

/-- A permission loop that stops early answers 400 or 500. -/
theorem assignPermissions_error_status (db : DB) (roleID : Int) (names : List String) :
    ∀ tx resp, assignPermissions db roleID names tx = .error resp →
      resp.status = 400 ∨ resp.status = 500 := by
  induction names with
  | nil => intro tx resp h; simp [assignPermissions] at h
  | cons n rest ih =>
    intro tx resp h
    unfold assignPermissions at h
    split_ifs at h
    · simp only [Except.error.injEq] at h
      rw [← h]; exact Or.inl rfl
    · cases hp : tx.permissionByName n with
      | none =>
        simp only [hp, Except.error.injEq] at h
        rw [← h]; exact Or.inl rfl
      | some p =>
        simp only [hp] at h
        split_ifs at h
        · simp only [Except.error.injEq] at h
          rw [← h]; exact Or.inr rfl
        · exact ih _ _ h

/-- With a server that accepts every statement, the permission loop runs to
its end when every name is carried by a permission row. -/
theorem assignPermissions_accept (db : DB) (roleID : Int)
    (hdb : ∀ s st, db.rejects s st = false) (names : List String) :
    ∀ tx links, permissionLinks tx.permissions roleID names = some links →
      assignPermissions db roleID names tx
        = .ok { tx with role_permissions := tx.role_permissions ++ links } := by
  induction names with
  | nil =>
    intro tx links h
    simp only [permissionLinks, Option.some.injEq] at h
    simp [assignPermissions, ← h]
  | cons n rest ih =>
    intro tx links h
    unfold permissionLinks at h
    unfold assignPermissions
    simp only [hdb, Bool.false_eq_true, if_false]
    unfold Store.permissionByName
    cases hp : tx.permissions.find? (fun p => p.name == n) with
    | none => simp [hp] at h
    | some p =>
      simp only [hp] at h ⊢
      cases hl : permissionLinks tx.permissions roleID rest with
      | none => simp [hl] at h
      | some links' =>
        simp only [hl, Option.map_some', Option.some.injEq] at h
        have := ih (tx.insertRolePermission roleID p.id) links' hl
        rw [this, ← h]
        simp [Store.insertRolePermission]

/-- With a server that accepts every statement, the permission loop stops at
the first name that no permission row carries, with the 400 naming it. -/
theorem assignPermissions_first_unknown (db : DB) (roleID : Int) (bad : String)
    (hdb : ∀ s st, db.rejects s st = false) (permissions : List Permission)
    (names : List String) :
    ∀ tx, tx.permissions = permissions →
      names.find? (fun n => (permissions.find? fun p => p.name == n).isNone) = some bad →
      assignPermissions db roleID names tx
        = .error ⟨400, .error ("Invalid permission: " ++ bad)⟩ := by
  induction names with
  | nil => intro tx _ h; simp at h
  | cons n rest ih =>
    intro tx htx hfind
    unfold assignPermissions
    simp only [hdb, Bool.false_eq_true, if_false]
    unfold Store.permissionByName
    rw [htx]
    rw [List.find?_cons] at hfind
    cases hp : permissions.find? (fun p => p.name == n) with
    | none =>
      simp only [hp, Option.isNone_none, Option.some.injEq] at hfind
      rw [hfind]
    | some p =>
      simp only [hp, Option.isNone_some] at hfind
      exact ih _ htx hfind

/-- The links of a role are rows of that role. -/
theorem permissionLinks_role_id (permissions : List Permission) (roleID : Int)
    (names : List String) :
    ∀ links, permissionLinks permissions roleID names = some links →
      ∀ l ∈ links, l.role_id = roleID := by
  induction names with
  | nil =>
    intro links h l hl
    simp only [permissionLinks, Option.some.injEq] at h
    rw [← h] at hl
    exact absurd hl (List.not_mem_nil _)
  | cons n rest ih =>
    intro links h l hl
    unfold permissionLinks at h
    cases hp : permissions.find? (fun p => p.name == n) with
    | none => simp [hp] at h
    | some p =>
      simp only [hp] at h
      cases hrest : permissionLinks permissions roleID rest with
      | none => simp [hrest] at h
      | some links' =>
        simp only [hrest, Option.map_some', Option.some.injEq] at h
        rw [← h] at hl
        rcases List.mem_cons.1 hl with e | e
        · rw [e]
        · exact ih links' hrest l e

/-- A name carried by no permission row has no links. -/
theorem permissionLinks_unknown (permissions : List Permission) (roleID : Int) (name : String)
    (hunk : ∀ p ∈ permissions, p.name ≠ name) (names : List String) (hmem : name ∈ names) :
    permissionLinks permissions roleID names = none := by
  induction names with
  | nil => exact absurd hmem (List.not_mem_nil _)
  | cons n rest ih =>
    unfold permissionLinks
    cases hp : permissions.find? (fun p => p.name == n) with
    | none => rfl
    | some p =>
      simp only
      have hne : n ≠ name := by
        rintro rfl
        have := List.find?_some hp
        have hm := List.mem_of_find?_eq_some hp
        exact hunk p hm (by simpa using this)
      rcases List.mem_cons.1 hmem with e | e
      · exact absurd e.symm hne
      · rw [ih e]; rfl

/-- After the old rows of a role are deleted and the links appended, the rows
of the role are the links. -/
theorem filter_role_links (old links : List RolePermission) (roleID : Int)
    (h : ∀ l ∈ links, l.role_id = roleID) :
    (old.filter (fun rp => rp.role_id != roleID) ++ links).filter
      (fun rp => rp.role_id == roleID) = links := by
  rw [List.filter_append, List.filter_filter]
  have h1 : old.filter (fun rp => (rp.role_id == roleID && rp.role_id != roleID)) = [] := by
    rw [List.filter_eq_nil_iff]
    intro rp _
    by_cases e : rp.role_id = roleID <;> simp [e]
  have h2 : links.filter (fun rp => rp.role_id == roleID) = links := by
    rw [List.filter_eq_self]
    intro l hl
    simp [h l hl]
  rw [h1, h2, List.nil_append]

/-- A bound role update carries the name and the permission list of the
body. -/
theorem bindUpdateRole_some (j : UpdateRoleJSON) (req : UpdateRoleRequest)
    (h : bindUpdateRole (some j) = some req) :
    req.Name = j.name.getD "" ∧ req.Permissions = j.permissions := by
  unfold bindUpdateRole at h
  simp only at h
  split_ifs at h
  simp only [Option.some.injEq] at h
  rw [← h]
  exact ⟨rfl, rfl⟩

/-- Every response of `UpdateRole` is either the 200 with the name set and the
rows of the role replaced by the links of the names, or another status with
the committed rows as they were. -/
theorem updateRole_cases (db : DB) (idParam : String) (j : UpdateRoleJSON)
    (names : List String) (hperms : j.permissions = some names) :
    (∃ id links, Atoi idParam = some id ∧ bindUpdateRole (some j) ≠ none ∧
      permissionLinks db.store.permissions id names = some links ∧
      UpdateRole db idParam (some j) =
        (⟨200, .message "Role updated successfully"⟩,
          { db.store.updateRoleName id (j.name.getD "") with
            role_permissions :=
              db.store.role_permissions.filter (fun rp => rp.role_id != id) ++ links })) ∨
    (((UpdateRole db idParam (some j)).1.status = 400 ∨
        (UpdateRole db idParam (some j)).1.status = 500) ∧
      (UpdateRole db idParam (some j)).2 = db.store) := by
  unfold UpdateRole
  cases hid : Atoi idParam with
  | none => exact Or.inr ⟨Or.inl rfl, rfl⟩
  | some id =>
    simp only
    cases hb : bindUpdateRole (some j) with
    | none => exact Or.inr ⟨Or.inl rfl, rfl⟩
    | some req =>
      obtain ⟨hname, hr⟩ := bindUpdateRole_some j req hb
      rw [hperms] at hr
      simp only [hr, hname]
      by_cases h0 : db.rejects db.store .begin = true
      · simp [h0]
      · simp only [h0, Bool.false_eq_true, if_false]
        by_cases h1 : db.rejects db.store (.updateRoleName (j.name.getD "") id) = true
        · simp [h1]
        · simp only [h1, Bool.false_eq_true, if_false]
          by_cases h2 : db.rejects (db.store.updateRoleName id (j.name.getD ""))
              (.deleteRolePermissions id) = true
          · simp [h2]
          · simp only [h2, Bool.false_eq_true, if_false]
            cases ha : assignPermissions db id names
                ((db.store.updateRoleName id (j.name.getD "")).deleteRolePermissions id) with
            | error resp =>
              exact Or.inr ⟨assignPermissions_error_status db id names _ resp ha, rfl⟩
            | ok tx =>
              simp only
              by_cases h3 : db.rejects tx .commit = true
              · simp [h3]
              · simp only [h3, Bool.false_eq_true, if_false]
                obtain ⟨links, hl, htx⟩ := assignPermissions_ok_links db id names _ _ ha
                exact Or.inl ⟨id, links, rfl, by simp, hl, by rw [htx]; rfl⟩

/-- With a server that accepts every statement, `UpdateUser` with a parsed id,
a username and known role names answers 200. -/
theorem updateUser_accept (db : DB) (idParam : String) (id : Int) (j : UpdateUserJSON)
    (names : List String) (links : List UserRole)
    (hdb : ∀ s st, db.rejects s st = false) (hid : Atoi idParam = some id)
    (hname : j.username.getD "" ≠ "") (hroles : j.roles = some names)
    (hl : roleLinks db.store.roles id names = some links) :
    UpdateUser db idParam (some j) =
      (⟨200, .message "User updated successfully"⟩,
        { db.store.updateUsername id (j.username.getD "") with
          user_roles := db.store.user_roles.filter (fun ur => ur.user_id != id) ++ links }) := by
  have ha := assignRoles_accept db id hdb names
    ((db.store.updateUsername id (j.username.getD "")).deleteUserRolesByUser id) links hl
  simp only [UpdateUser, hid, bindUpdateUser, hname, if_false, hdb, Bool.false_eq_true, hroles,
    ha]
  rfl

/-- With a server that accepts every statement, `UpdateUser` with a parsed id
and a username answers 400 for the first role name that no role row carries,
and commits nothing. -/
theorem updateUser_unknown_400 (db : DB) (idParam : String) (id : Int) (j : UpdateUserJSON)
    (names : List String) (bad : String)
    (hdb : ∀ s st, db.rejects s st = false) (hid : Atoi idParam = some id)
    (hname : j.username.getD "" ≠ "") (hroles : j.roles = some names)
    (hbad : names.find? (fun n => (db.store.roles.find? fun r => r.name == n).isNone)
      = some bad) :
    UpdateUser db idParam (some j)
      = (⟨400, .error ("Invalid role: " ++ bad)⟩, db.store) := by
  have ha := assignRoles_first_unknown db id bad hdb db.store.roles names
    ((db.store.updateUsername id (j.username.getD "")).deleteUserRolesByUser id) rfl hbad
  simp only [UpdateUser, hid, bindUpdateUser, hname, if_false, hdb, Bool.false_eq_true, hroles,
    ha]

/-- With a server that accepts every statement, `UpdateRole` with a parsed id,
a name and known permission names answers 200. -/
theorem updateRole_accept (db : DB) (idParam : String) (id : Int) (j : UpdateRoleJSON)
    (names : List String) (links : List RolePermission)
    (hdb : ∀ s st, db.rejects s st = false) (hid : Atoi idParam = some id)
    (hname : j.name.getD "" ≠ "") (hperms : j.permissions = some names)
    (hl : permissionLinks db.store.permissions id names = some links) :
    UpdateRole db idParam (some j) =
      (⟨200, .message "Role updated successfully"⟩,
        { db.store.updateRoleName id (j.name.getD "") with
          role_permissions :=
            db.store.role_permissions.filter (fun rp => rp.role_id != id) ++ links }) := by
  have ha := assignPermissions_accept db id hdb names
    ((db.store.updateRoleName id (j.name.getD "")).deleteRolePermissions id) links hl
  simp only [UpdateRole, hid, bindUpdateRole, hname, if_false, hdb, Bool.false_eq_true, hperms,
    ha]
  rfl

/-- With a server that accepts every statement, `UpdateRole` with a parsed id
and a name answers 400 for the first permission name that no permission row
carries, and commits nothing. -/
theorem updateRole_unknown_400 (db : DB) (idParam : String) (id : Int) (j : UpdateRoleJSON)
    (names : List String) (bad : String)
    (hdb : ∀ s st, db.rejects s st = false) (hid : Atoi idParam = some id)
    (hname : j.name.getD "" ≠ "") (hperms : j.permissions = some names)
    (hbad : names.find? (fun n => (db.store.permissions.find? fun p => p.name == n).isNone)
      = some bad) :
    UpdateRole db idParam (some j)
      = (⟨400, .error ("Invalid permission: " ++ bad)⟩, db.store) := by
  have ha := assignPermissions_first_unknown db id bad hdb db.store.permissions names
    ((db.store.updateRoleName id (j.name.getD "")).deleteRolePermissions id) rfl hbad
  simp only [UpdateRole, hid, bindUpdateRole, hname, if_false, hdb, Bool.false_eq_true, hperms,
    ha]

/-- Claim C12: for every store state and every update request with a non-nil
role (resp. permission) list, `UpdateUser` (resp. `UpdateRole`) either answers
200 and commits the new name together with exactly the links of the requested
names in place of the old links of the entity, or answers 400 or 500 and the
committed rows are the rows before the call (name change and deletion of the
old links undone); a name carried by no row makes the call fail, with 400
when the server accepts the statements. -/
theorem update_replaces_links_atomically (db : DB) (idParam : String) :
    (∀ (j : UpdateUserJSON) (names : List String), j.roles = some names →
      (((UpdateUser db idParam (some j)).1.status = 200 ∧
          ∃ id links, Atoi idParam = some id ∧
            roleLinks db.store.roles id names = some links ∧
            (UpdateUser db idParam (some j)).2 =
              { db.store.updateUsername id (j.username.getD "") with
                user_roles :=
                  db.store.user_roles.filter (fun ur => ur.user_id != id) ++ links } ∧
            (UpdateUser db idParam (some j)).2.user_roles.filter
              (fun ur => ur.user_id == id) = links) ∨
        (((UpdateUser db idParam (some j)).1.status = 400 ∨
            (UpdateUser db idParam (some j)).1.status = 500) ∧
          (UpdateUser db idParam (some j)).2 = db.store)) ∧
      (∀ name ∈ names, (∀ r ∈ db.store.roles, r.name ≠ name) →
        ((UpdateUser db idParam (some j)).1.status = 400 ∨
            (UpdateUser db idParam (some j)).1.status = 500) ∧
          (UpdateUser db idParam (some j)).2 = db.store) ∧
      (∀ id, (∀ s st, db.rejects s st = false) → Atoi idParam = some id →
        j.username.getD "" ≠ "" →
        (∀ bad, names.find? (fun n => (db.store.roles.find? fun r => r.name == n).isNone)
            = some bad →
          UpdateUser db idParam (some j)
            = (⟨400, .error ("Invalid role: " ++ bad)⟩, db.store)) ∧
        (∀ links, roleLinks db.store.roles id names = some links →
          (UpdateUser db idParam (some j)).1.status = 200))) ∧
    (∀ (j : UpdateRoleJSON) (names : List String), j.permissions = some names →
      (((UpdateRole db idParam (some j)).1.status = 200 ∧
          ∃ id links, Atoi idParam = some id ∧
            permissionLinks db.store.permissions id names = some links ∧
            (UpdateRole db idParam (some j)).2 =
              { db.store.updateRoleName id (j.name.getD "") with
                role_permissions :=
                  db.store.role_permissions.filter (fun rp => rp.role_id != id) ++ links } ∧
            (UpdateRole db idParam (some j)).2.role_permissions.filter
              (fun rp => rp.role_id == id) = links) ∨
        (((UpdateRole db idParam (some j)).1.status = 400 ∨
            (UpdateRole db idParam (some j)).1.status = 500) ∧
          (UpdateRole db idParam (some j)).2 = db.store)) ∧
      (∀ name ∈ names, (∀ p ∈ db.store.permissions, p.name ≠ name) →
        ((UpdateRole db idParam (some j)).1.status = 400 ∨
            (UpdateRole db idParam (some j)).1.status = 500) ∧
          (UpdateRole db idParam (some j)).2 = db.store) ∧
      (∀ id, (∀ s st, db.rejects s st = false) → Atoi idParam = some id →
        j.name.getD "" ≠ "" →
        (∀ bad,
          names.find? (fun n => (db.store.permissions.find? fun p => p.name == n).isNone)
            = some bad →
          UpdateRole db idParam (some j)
            = (⟨400, .error ("Invalid permission: " ++ bad)⟩, db.store)) ∧
        (∀ links, permissionLinks db.store.permissions id names = some links →
          (UpdateRole db idParam (some j)).1.status = 200))) := by
  constructor
  · intro j names hroles
    have hc := updateUser_cases db idParam j names hroles
    refine ⟨?_, ?_, ?_⟩
    · rcases hc with ⟨id, links, hid, -, hl, he⟩ | h
      · refine Or.inl ⟨by rw [he], id, links, hid, hl, by rw [he], ?_⟩
        rw [he]
        exact filter_user_links _ _ _ (roleLinks_user_id _ _ _ _ hl)
      · exact Or.inr h
    · intro name hmem hunk
      rcases hc with ⟨id, links, -, -, hl, -⟩ | h
      · rw [roleLinks_unknown db.store.roles id name hunk names hmem] at hl
        cases hl
      · exact h
    · intro id hdb hid hname
      refine ⟨fun bad hbad => updateUser_unknown_400 db idParam id j names bad hdb hid hname
        hroles hbad, fun links hl => ?_⟩
      rw [updateUser_accept db idParam id j names links hdb hid hname hroles hl]
  · intro j names hperms
    have hc := updateRole_cases db idParam j names hperms
    refine ⟨?_, ?_, ?_⟩
    · rcases hc with ⟨id, links, hid, -, hl, he⟩ | h
      · refine Or.inl ⟨by rw [he], id, links, hid, hl, by rw [he], ?_⟩
        rw [he]
        exact filter_role_links _ _ _ (permissionLinks_role_id _ _ _ _ hl)
      · exact Or.inr h
    · intro name hmem hunk
      rcases hc with ⟨id, links, -, -, hl, -⟩ | h
      · rw [permissionLinks_unknown db.store.permissions id name hunk names hmem] at hl
        cases hl
      · exact h
    · intro id hdb hid hname
      refine ⟨fun bad hbad => updateRole_unknown_400 db idParam id j names bad hdb hid hname
        hperms hbad, fun links hl => ?_⟩
      rw [updateRole_accept db idParam id j names links hdb hid hname hperms hl]

/-- Claim C12, instance: on `sampleStore`, setting the roles of bob (4) to
`viewer` answers 200 and leaves him the single link to role 2, while the
list `viewer`, `ghost` is answered 400 with nothing committed although the
username was to change; the same for the permissions of role 1. -/
theorem update_replaces_links_atomically_witness :
    UpdateUser (plainDB sampleStore) "4" (some ⟨some "bob", some ["viewer"]⟩)
      = (⟨200, .message "User updated successfully"⟩,
          { sampleStore with user_roles := [⟨3, 1⟩, ⟨4, 2⟩] }) ∧
    UpdateUser (plainDB sampleStore) "4" (some ⟨some "robert", some ["viewer", "ghost"]⟩)
      = (⟨400, .error "Invalid role: ghost"⟩, sampleStore) ∧
    UpdateRole (plainDB sampleStore) "1" (some ⟨some "editor", some ["view_post"]⟩)
      = (⟨200, .message "Role updated successfully"⟩,
          { sampleStore with role_permissions := [⟨2, 1⟩, ⟨1, 1⟩] }) ∧
    ((UpdateRole (plainDB sampleStore) "1"
        (some ⟨some "author", some ["view_post", "fly"]⟩)).1.status = 400 ∨
      (UpdateRole (plainDB sampleStore) "1"
        (some ⟨some "author", some ["view_post", "fly"]⟩)).1.status = 500) ∧
    (UpdateRole (plainDB sampleStore) "1"
        (some ⟨some "author", some ["view_post", "fly"]⟩)).2 = sampleStore :=
  ⟨by decide,
   ((update_replaces_links_atomically (plainDB sampleStore) "4").1
      ⟨some "robert", some ["viewer", "ghost"]⟩ ["viewer", "ghost"] rfl).2.2 4
      (fun _ _ => rfl) (by decide) (by decide) |>.1 "ghost" (by decide),
   by decide,
   (((update_replaces_links_atomically (plainDB sampleStore) "1").2
      ⟨some "author", some ["view_post", "fly"]⟩ ["view_post", "fly"] rfl).2.1 "fly"
      (by decide) (by decide)).1,
   (((update_replaces_links_atomically (plainDB sampleStore) "1").2
      ⟨some "author", some ["view_post", "fly"]⟩ ["view_post", "fly"] rfl).2.1 "fly"
      (by decide) (by decide)).2⟩

/-! ## Signing secret -/

/-- A token signed with an HMAC method is not the empty string. -/
theorem signedString_ne_empty (L : JWTLib) (h : HashAlg) (p : Payload) (key tok : String)
    (hs : SignedString L (.HMAC h) p key = .ok tok) : tok ≠ "" := by
  rw [signedString_hmac] at hs
  cases hs
  intro e
  have := congrArg String.data e
  simp [String.data_append] at this

/-- Claim C11 (amended): when the configured signing secret is empty or unset,
`GenerateJWT` does not fail: it returns no error and two non-empty tokens
signed with HS256 under the empty key, and `ValidateJWT` under the same empty
secret accepts the access token (issued for a user id of Go type `int`) until
it expires. -/
theorem generateJWT_signs_with_empty_secret (L : JWTLib) (hL : L.Lawful) (loc : Location)
    (clock : IssueClock) (u : Int) (n : String) (r : List String) :
    (GenerateJWT L "" loc clock u n r).2.2 = none ∧
    (GenerateJWT L "" loc clock u n r).1 ≠ "" ∧
    (GenerateJWT L "" loc clock u n r).2.1 ≠ "" ∧
    SignedString L (.HMAC .SHA256) (marshalJWTClaim (accessClaims clock u n r)) ""
      = .ok (GenerateJWT L "" loc clock u n r).1 ∧
    SignedString L (.HMAC .SHA256) (marshalRegisteredClaims (refreshClaims loc clock u)) ""
      = .ok (GenerateJWT L "" loc clock u n r).2.1 ∧
    (∀ now, now < clock.accessExpiry + 24 * 3600 → isInt64 u →
      ValidateJWT L "" now (GenerateJWT L "" loc clock u n r).1
        = .ok (accessClaims clock u n r)) := by
  obtain ⟨a, rt, ha, hr, hg⟩ := generateJWT_eq L "" loc clock u n r
  refine ⟨by rw [hg], by rw [hg]; exact signedString_ne_empty L _ _ _ _ ha,
    by rw [hg]; exact signedString_ne_empty L _ _ _ _ hr, by rw [hg]; exact ha,
    by rw [hg]; exact hr, ?_⟩
  intro now hnow hu
  rw [validateJWT_access L hL "" loc clock now u n r hu,
    if_pos (by unfold accessLifetime; omega)]

/-- Claim C11, instance: under `refLib` with the empty secret the access token
issued at time 1000 validates at time 1500. -/
theorem generateJWT_signs_with_empty_secret_witness :
    (GenerateJWT refLib "" Location.UTC (IssueClock.const 1000) 5 "alice" ["editor"]).2.2
      = none ∧
    ValidateJWT refLib "" 1500
        (GenerateJWT refLib "" Location.UTC (IssueClock.const 1000) 5 "alice" ["editor"]).1
      = .ok (accessClaims (IssueClock.const 1000) 5 "alice" ["editor"]) :=
  ⟨(generateJWT_signs_with_empty_secret refLib refLib_lawful Location.UTC
      (IssueClock.const 1000) 5 "alice" ["editor"]).1,
   (generateJWT_signs_with_empty_secret refLib refLib_lawful Location.UTC
      (IssueClock.const 1000) 5 "alice" ["editor"]).2.2.2.2.2 1500 (by decide) (by decide)⟩

/-- Claim C11 as stated fails: with the empty secret `GenerateJWT` returns the
two tokens below and a nil error, and `Authenticate` under the same empty
secret admits the access token. -/
theorem generateJWT_empty_secret_no_error :
    GenerateJWT refLib "" Location.UTC (IssueClock.const 1000) 5 "alice" ["editor"]
      = (emptyKeyAccessToken, emptyKeyRefreshToken, none) ∧
    Authenticate refLib "" 1500 ("Bearer " ++ emptyKeyAccessToken) Context.empty
      = .next ⟨some 5, some "alice", some ["editor"]⟩ := by
  decide

/-! ## The gate reads the store, not the token -/

/-- The gate lets a context through exactly when the lookup for its user id
succeeds with true. -/
theorem requirePermission_next_iff (db : DB) (permission : String) (c : Context)
    (userID : Int) (hc : c.user_id = some userID) :
    RequirePermission db permission c = .next c ↔
      db.rejects db.store (.selectHasPermission userID permission) = false ∧
        hasPermissionQuery db.store userID permission = true := by
  unfold RequirePermission queryHasPermission
  rw [hc]
  simp only
  cases hr : db.rejects db.store (.selectHasPermission userID permission) with
  | true => simp
  | false =>
    cases hq : hasPermissionQuery db.store userID permission <;> simp

/-- When the gate does not let a context with a user id through, it answers
403. -/
theorem requirePermission_abort_of_not (db : DB) (permission : String) (c : Context)
    (userID : Int) (hc : c.user_id = some userID)
    (h : ¬ (db.rejects db.store (.selectHasPermission userID permission) = false ∧
        hasPermissionQuery db.store userID permission = true)) :
    RequirePermission db permission c = .abort ⟨403, .error "Forbidden"⟩ := by
  unfold RequirePermission queryHasPermission
  rw [hc]
  simp only
  cases hr : db.rejects db.store (.selectHasPermission userID permission) with
  | true => simp
  | false =>
    cases hq : hasPermissionQuery db.store userID permission with
    | false => simp
    | true => exact absurd ⟨hr, hq⟩ h

/-- The route chain on `Bearer` and an unexpired access token of `GenerateJWT`
is the gate on the identity of the token. -/
theorem protectedRoute_access (L : JWTLib) (hL : L.Lawful) (secret : String) (loc : Location)
    (clock : IssueClock) (now : Nat) (u : Int) (n : String) (r : List String) (db : DB)
    (permission : String) (hu : isInt64 u) (hnow : now < clock.accessExpiry + accessLifetime) :
    protectedRoute L secret now db permission
        ("Bearer " ++ (GenerateJWT L secret loc clock u n r).1)
      = RequirePermission db permission ⟨some u, some n, some r⟩ := by
  have hv := validateJWT_access L hL secret loc clock now u n r hu
  rw [if_pos hnow] at hv
  obtain ⟨a, rt, ha, -, hg⟩ := generateJWT_eq L secret loc clock u n r
  rw [hg] at hv ⊢
  simp only at hv ⊢
  unfold protectedRoute
  rw [authenticate_bearer_signed L hL _ _ _ secret now a Context.empty ha, hv]
  rfl

/-- Claim C13: the decision of `RequirePermission` depends only on the user id
in the context, the permission name and the current store: two contexts with
the same `user_id` get the same abort response or are both let through,
whatever their `username` and `roles`; a request bearing an unexpired access
token (issued for a user id of Go type `int`) is let through exactly when the
current store grants the permission to the user id of the token, whatever
roles the token carries, and is answered 403 otherwise. -/
theorem requirePermission_reads_store_not_token (db : DB) (permission : String) :
    (∀ c1 c2 : Context, c1.user_id = c2.user_id →
      (∀ resp, RequirePermission db permission c1 = .abort resp ↔
        RequirePermission db permission c2 = .abort resp) ∧
      (RequirePermission db permission c1 = .next c1 ↔
        RequirePermission db permission c2 = .next c2)) ∧
    (∀ (L : JWTLib), L.Lawful → ∀ (secret : String) (loc : Location) (clock : IssueClock)
        (now : Nat) (u : Int) (n : String) (r : List String), isInt64 u →
        now < clock.accessExpiry + 24 * 3600 →
      (protectedRoute L secret now db permission
          ("Bearer " ++ (GenerateJWT L secret loc clock u n r).1)
            = .next ⟨some u, some n, some r⟩ ↔
        db.rejects db.store (.selectHasPermission u permission) = false ∧
          hasPermissionQuery db.store u permission = true) ∧
      (¬ (db.rejects db.store (.selectHasPermission u permission) = false ∧
          hasPermissionQuery db.store u permission = true) →
        protectedRoute L secret now db permission
          ("Bearer " ++ (GenerateJWT L secret loc clock u n r).1)
            = .abort ⟨403, .error "Forbidden"⟩)) := by
  constructor
  · intro c1 c2 hc
    cases h1 : c1.user_id with
    | none =>
      have h2 : c2.user_id = none := by rw [← hc, h1]
      simp [RequirePermission, h1, h2]
    | some userID =>
      have h2 : c2.user_id = some userID := by rw [← hc, h1]
      constructor
      · intro resp
        by_cases hg : db.rejects db.store (.selectHasPermission userID permission) = false ∧
            hasPermissionQuery db.store userID permission = true
        · rw [(requirePermission_next_iff db permission c1 userID h1).2 hg,
            (requirePermission_next_iff db permission c2 userID h2).2 hg]
          simp
        · rw [requirePermission_abort_of_not db permission c1 userID h1 hg,
            requirePermission_abort_of_not db permission c2 userID h2 hg]
      · rw [requirePermission_next_iff db permission c1 userID h1,
          requirePermission_next_iff db permission c2 userID h2]
  · intro L hL secret loc clock now u n r hu hnow
    have hnow' : now < clock.accessExpiry + accessLifetime := by unfold accessLifetime; omega
    rw [protectedRoute_access L hL secret loc clock now u n r db permission hu hnow']
    exact ⟨requirePermission_next_iff db permission _ u rfl,
      requirePermission_abort_of_not db permission _ u rfl⟩

/-- Claim C13, instance: `sampleAccessToken` was issued to user 5 with role
`editor`; on `loginStore` the route for `view_post` lets it through, and after
`UpdateUser` has removed the roles of user 5 the same token, which still
carries `editor`, is answered 403. -/
theorem requirePermission_reads_store_not_token_witness :
    protectedRoute refLib "k" 1500 (plainDB loginStore) "view_post"
        ("Bearer " ++ sampleAccessToken) = .next ⟨some 5, some "alice", some ["editor"]⟩ ∧
    UpdateUser (plainDB loginStore) "5" (some ⟨some "alice", some []⟩)
      = (⟨200, .message "User updated successfully"⟩, { loginStore with user_roles := [] }) ∧
    protectedRoute refLib "k" 1500 (plainDB { loginStore with user_roles := [] }) "view_post"
        ("Bearer " ++ sampleAccessToken) = .abort ⟨403, .error "Forbidden"⟩ ∧
    (RequirePermission (plainDB loginStore) "view_post" ⟨some 5, some "alice", some ["editor"]⟩
        = .next ⟨some 5, some "alice", some ["editor"]⟩ ↔
      RequirePermission (plainDB loginStore) "view_post" ⟨some 5, some "mallory", some []⟩
        = .next ⟨some 5, some "mallory", some []⟩) :=
  ⟨by decide, by decide, by decide,
   ((requirePermission_reads_store_not_token (plainDB loginStore) "view_post").1
      ⟨some 5, some "alice", some ["editor"]⟩ ⟨some 5, some "mallory", some []⟩ rfl).2⟩

/-! ## UpdateUser on an absent user -/

/-- Go `UpdateUser` answers 200, 400 or 500, never 404. -/
theorem updateUser_status (db : DB) (idParam : String) (body : Option UpdateUserJSON) :
    (UpdateUser db idParam body).1.status = 200 ∨ (UpdateUser db idParam body).1.status = 400 ∨
      (UpdateUser db idParam body).1.status = 500 := by
  unfold UpdateUser
  cases hid : Atoi idParam with
  | none => exact Or.inr (Or.inl rfl)
  | some id =>
    simp only
    cases hb : bindUpdateUser body with
    | none => exact Or.inr (Or.inl rfl)
    | some req =>
      simp only
      by_cases h0 : db.rejects db.store .begin = true
      · simp [h0]
      · simp only [h0, Bool.false_eq_true, if_false]
        by_cases h1 : db.rejects db.store (.updateUsername req.Username id) = true
        · simp [h1]
        · simp only [h1, Bool.false_eq_true, if_false]
          cases hroles : req.Roles with
          | none =>
            simp only
            split_ifs
            · exact Or.inr (Or.inr rfl)
            · exact Or.inl rfl
          | some names =>
            simp only
            by_cases h2 : db.rejects (db.store.updateUsername id req.Username)
                (.deleteUserRolesByUser id) = true
            · simp [h2]
            · simp only [h2, Bool.false_eq_true, if_false]
              cases ha : assignRoles db id names
                  ((db.store.updateUsername id req.Username).deleteUserRolesByUser id) with
              | error resp =>
                exact Or.inr (assignRoles_error_status db id names _ resp ha)
              | ok tx =>
                simp only
                split_ifs
                · exact Or.inr (Or.inr rfl)
                · exact Or.inl rfl

/-- Claim C14, evaluated: `sampleStore` has no user 99; `GetUser` and
`DeleteUser` answer 404 for that id, but `UpdateUser` with a well-formed body
answers 200, and with a role list it commits a `user_roles` row for the
absent user. -/
theorem updateUser_absent_user_not_404 :
    sampleStore.userById 99 = none ∧
    GetUser (plainDB sampleStore) "99" = ⟨404, .error "User not found"⟩ ∧
    DeleteUser (plainDB sampleStore) "99" = (⟨404, .error "User not found"⟩, sampleStore) ∧
    UpdateUser (plainDB sampleStore) "99" (some ⟨some "zed", none⟩)
      = (⟨200, .message "User updated successfully"⟩, sampleStore) ∧
    UpdateUser (plainDB sampleStore) "99" (some ⟨some "zed", some ["editor"]⟩)
      = (⟨200, .message "User updated successfully"⟩,
          { sampleStore with user_roles := sampleStore.user_roles ++ [⟨99, 1⟩] }) := by
  decide


end Rbac
